import Mathlib

set_option linter.unusedVariables false
set_option linter.unnecessarySeqFocus false

/-!
Verification of the YouGile automation bot (yandex_gpt_bot.py).

The development shallowly embeds the response-parsing, report-rendering and
dispatch logic of the source file. Python dict/JSON values are modeled by the
inductive type JsonVal; Python exceptions are modeled by the Except monad with
string-valued errors (PyErr); external collaborators (the completion API call,
the task-creation API call, the json.loads library parser and the prompt store)
are modeled as oracle functions passed in as parameters.
-/

/-- Python exception carrying a human-readable message (the value of str(e)). -/
abbrev PyErr := String

/-- JSON-like values: the payloads produced by json.loads and the Python dicts
built by the source. Numbers are modeled as rationals. -/
inductive JsonVal where
  | null
  | bool (b : Bool)
  | num (q : ℚ)
  | str (s : String)
  | arr (xs : List JsonVal)
  | obj (kvs : List (String × JsonVal))

/-- First-match key lookup in an association list (Python dicts have unique
keys, so first-match agrees with dict lookup). -/
def lookupKV : List (String × JsonVal) → String → Option JsonVal
  | [], _ => none
  | (k, v) :: rest, key => if k = key then some v else lookupKV rest key

/-- Total version of Python dict.get(key, default); on a non-dict value it
returns the default (use pyGet for the faithful raising version). -/
def JsonVal.getD (j : JsonVal) (key : String) (dflt : JsonVal) : JsonVal :=
  match j with
  | .obj kvs => match lookupKV kvs key with
    | some v => v
    | none => dflt
  | _ => dflt

/-- Python value.get(key, default): raises AttributeError when the receiver is
not a dict, as in the source where .get is called on arbitrary payload data. -/
def pyGet (j : JsonVal) (key : String) (dflt : JsonVal) : Except PyErr JsonVal :=
  match j with
  | .obj _ => .ok (j.getD key dflt)
  | _ => .error "AttributeError: get called on a non-dict value"

/-- Python truthiness of a value (bool(x)). -/
def pyTruthy : JsonVal → Bool
  | .null => false
  | .bool b => b
  | .num q => if q = 0 then false else true
  | .str s => if s = "" then false else true
  | .arr xs => !xs.isEmpty
  | .obj kvs => !kvs.isEmpty

/-- Python iteration over a value. Modeling note: the source only ever iterates
list-valued fields; iterating a non-list raises here (Python would raise
TypeError for non-iterables and iterate strings/dicts element-wise, but no
claim depends on those pathological shapes). -/
def pyIter : JsonVal → Except PyErr (List JsonVal)
  | .arr xs => .ok xs
  | _ => .error "TypeError: object is not iterable"

/-- Numeric coercion used for arithmetic on payload fields. Python bools are
ints, so they participate in arithmetic; all other non-numbers raise. -/
def pyNum : JsonVal → Except PyErr ℚ
  | .num q => .ok q
  | .bool b => .ok (if b then 1 else 0)
  | _ => .error "TypeError: unsupported operand type for arithmetic"

/-- Python int() applied to a rational: truncation toward zero. -/
def pyIntOfRat (q : ℚ) : ℤ :=
  if 0 ≤ q then ((q.num.toNat / q.den : ℕ) : ℤ) else -(((-q.num).toNat / q.den : ℕ) : ℤ)

/-- Uppercasing for the characters appearing in this code base (ASCII letters
and Russian Cyrillic letters). Python str.upper covers full Unicode; only these
ranges occur in the source strings and the modeled payloads. -/
def pyCharUpper (c : Char) : Char :=
  if 'a' ≤ c ∧ c ≤ 'z' then Char.ofNat (c.toNat - 32)
  else if 'а' ≤ c ∧ c ≤ 'я' then Char.ofNat (c.toNat - 32)
  else if c = 'ё' then 'Ё'
  else c

/-- Python value.upper(): only strings have the method, anything else raises
AttributeError (this happens in the renderers when a status field is not a
string). -/
def pyUpper : JsonVal → Except PyErr String
  | .str s => .ok (String.mk (s.data.map pyCharUpper))
  | _ => .error "AttributeError: upper called on a non-string value"

/-- Python equality test between an arbitrary value and a string literal. -/
def jsonEqStr (j : JsonVal) (s : String) : Bool :=
  match j with
  | .str t => t == s
  | _ => false

/-- Python string slicing s[:n] (by code points, as Python slices str). -/
def pyTake (s : String) (n : Nat) : String := String.mk (s.data.take n)

/-- Decimal rendering of integers; non-integer rationals are rendered as a
fraction (modeling note: Python would print a float decimal expansion; no
claim depends on the textual form of non-integer numbers). -/
def ratStr (q : ℚ) : String :=
  if q.den = 1 then toString q.num else toString q.num ++ "/" ++ toString q.den

mutual
/-- Python repr() of a value as it appears inside containers (approximate for
nested containers; exact for the scalars the claims touch). -/
def pyStrInner : JsonVal → String
  | .null => "None"
  | .bool true => "True"
  | .bool false => "False"
  | .str s => "\x27" ++ s ++ "\x27"
  | .num q => ratStr q
  | .arr xs => "[" ++ pyStrInnerList xs ++ "]"
  | .obj kvs => "\x7b" ++ pyStrInnerKVs kvs ++ "\x7d"

def pyStrInnerList : List JsonVal → String
  | [] => ""
  | [x] => pyStrInner x
  | x :: xs => pyStrInner x ++ ", " ++ pyStrInnerList xs

def pyStrInnerKVs : List (String × JsonVal) → String
  | [] => ""
  | [(k, v)] => "\x27" ++ k ++ "\x27: " ++ pyStrInner v
  | (k, v) :: rest => "\x27" ++ k ++ "\x27: " ++ pyStrInner v ++ ", " ++ pyStrInnerKVs rest
end

/-- Python str() of a value, as used by f-string interpolation. -/
def pyStr : JsonVal → String
  | .str s => s
  | j => pyStrInner j

/-- Characters stripped by Python str.strip() with no arguments. -/
def isPySpace (c : Char) : Bool :=
  (c == ' ') || (c == '\t') || (c == '\n') || (c == '\r') ||
  (c == Char.ofNat 11) || (c == Char.ofNat 12)

/-- Python str.strip() on a character list. -/
def pyStripL (l : List Char) : List Char :=
  ((l.dropWhile isPySpace).reverse.dropWhile isPySpace).reverse

/-- Python str.split with separator a newline: always returns at least one
(possibly empty) piece, and empty pieces between adjacent separators. -/
def splitLinesL : List Char → List (List Char)
  | [] => [[]]
  | c :: rest =>
    if c = '\n' then [] :: splitLinesL rest
    else match splitLinesL rest with
      | [] => [[c]]
      | h :: t => (c :: h) :: t

/-- Python newline.join on pieces. -/
def joinLinesL : List (List Char) → List Char
  | [] => []
  | [l] => l
  | l :: ls => l ++ '\n' :: joinLinesL ls

/-- Truncation of a line at the first double-slash occurrence: the body of
line[:line.find(&#x27;//&#x27;)] guarded by the containment test in the source; when no
double slash occurs the line is returned unchanged, exactly as in the source. -/
def truncDS : List Char → List Char
  | [] => []
  | [c] => [c]
  | c :: d :: rest => if (c == '/') && (d == '/') then [] else c :: truncDS (d :: rest)

/-- Whether a character list contains a double-slash occurrence. -/
def hasDS : List Char → Bool
  | [] => false
  | [_] => false
  | c :: d :: rest => ((c == '/') && (d == '/')) || hasDS (d :: rest)

/-- The triple-backtick fence marker. -/
def ticks : List Char := "```".data

/-- Comment-stripping tail of the extractor (source lines 77-86): split into
lines, truncate each at the first double slash, rejoin and strip. -/
def cleanDS (t : List Char) : List Char :=
  pyStripL (joinLinesL ((splitLinesL t).map truncDS))

/-- Core of extract_json_from_markdown on character lists, following the
source step by step: strip, split into lines, drop a leading fence line and a
trailing bare fence line, rejoin, then strip comments and whitespace. -/
def extractCore (t0 : List Char) : List Char :=
  let t1 := pyStripL t0
  let lines0 := splitLinesL t1
  let lines1 := match lines0 with
    | [] => []
    | l0 :: rest => if ticks.isPrefixOf (pyStripL l0) then rest else l0 :: rest
  let dropLastTick : Bool := match lines1.getLast? with
    | some ll => pyStripL ll == ticks
    | none => false
  let lines2 := if dropLastTick then lines1.dropLast else lines1
  cleanDS (joinLinesL lines2)

/-- The markdown/JSON extractor of the source. -/
def extract_json_from_markdown (s : String) : String := String.mk (extractCore s.data)

/-- Spaces used by the indenting serializer. -/
def spaces (n : Nat) : String := String.mk (List.replicate n ' ')

/-- Hexadecimal digit. -/
def hexDigit (n : Nat) : String :=
  String.singleton (if n < 10 then Char.ofNat (48 + n) else Char.ofNat (87 + n))

/-- JSON string escaping as json.dumps with ensure_ascii disabled performs it:
quote, backslash and control characters are escaped, everything else is kept. -/
def jsonEscChar (c : Char) : String :=
  if c = '"' then "\\\""
  else if c = '\\' then "\\\\"
  else if c = '\n' then "\\n"
  else if c = '\r' then "\\r"
  else if c = '\t' then "\\t"
  else if c.toNat < 32 then "\\u00" ++ hexDigit (c.toNat / 16) ++ hexDigit (c.toNat % 16)
  else String.singleton c

/-- JSON rendering of a string literal. -/
def jsonEscStr (s : String) : String :=
  "\"" ++ String.join (s.data.map jsonEscChar) ++ "\""

mutual
/-- json.dumps with ensure_ascii disabled and a two-space indent, at a given
current indent level (the source uses indent equal to 2). -/
def dumpsInd : Nat → JsonVal → String
  | _, .null => "null"
  | _, .bool true => "true"
  | _, .bool false => "false"
  | _, .num q => ratStr q
  | _, .str s => jsonEscStr s
  | _, .arr [] => "[]"
  | ind, .arr (x :: xs) =>
    "[\n" ++ dumpsIndItems (ind + 2) (x :: xs) ++ "\n" ++ spaces ind ++ "]"
  | _, .obj [] => "\x7b\x7d"
  | ind, .obj (kv :: kvs) =>
    "\x7b\n" ++ dumpsIndKVs (ind + 2) (kv :: kvs) ++ "\n" ++ spaces ind ++ "\x7d"

def dumpsIndItems : Nat → List JsonVal → String
  | _, [] => ""
  | ind, [x] => spaces ind ++ dumpsInd ind x
  | ind, x :: y :: xs => spaces ind ++ dumpsInd ind x ++ ",\n" ++ dumpsIndItems ind (y :: xs)

def dumpsIndKVs : Nat → List (String × JsonVal) → String
  | _, [] => ""
  | ind, [(k, v)] => spaces ind ++ jsonEscStr k ++ ": " ++ dumpsInd ind v
  | ind, (k, v) :: kv :: kvs =>
    spaces ind ++ jsonEscStr k ++ ": " ++ dumpsInd ind v ++ ",\n" ++ dumpsIndKVs ind (kv :: kvs)
end

mutual
/-- json.dumps with ensure_ascii disabled and default separators (used by the
early-return branches of the dispatcher). -/
def dumpsCompact : JsonVal → String
  | .null => "null"
  | .bool true => "true"
  | .bool false => "false"
  | .num q => ratStr q
  | .str s => jsonEscStr s
  | .arr xs => "[" ++ dumpsCompactItems xs ++ "]"
  | .obj kvs => "\x7b" ++ dumpsCompactKVs kvs ++ "\x7d"

def dumpsCompactItems : List JsonVal → String
  | [] => ""
  | [x] => dumpsCompact x
  | x :: y :: xs => dumpsCompact x ++ ", " ++ dumpsCompactItems (y :: xs)

def dumpsCompactKVs : List (String × JsonVal) → String
  | [] => ""
  | [(k, v)] => jsonEscStr k ++ ": " ++ dumpsCompact v
  | (k, v) :: kv :: kvs => jsonEscStr k ++ ": " ++ dumpsCompact v ++ ", " ++ dumpsCompactKVs (kv :: kvs)
end

/-- Effectful map over a list in the Except monad, mirroring a Python loop that
may raise at each element; stops at the first raised exception. -/
def mapE (f : α → Except PyErr β) : List α → Except PyErr (List β)
  | [] => .ok []
  | x :: xs => do
    let y ← f x
    let ys ← mapE f xs
    pure (y :: ys)

/-- Python enumerate with a start index. -/
def enumFromN : Nat → List α → List (Nat × α)
  | _, [] => []
  | n, x :: xs => (n, x) :: enumFromN (n + 1) xs

/-- A run of n copies of one character (used for the horizontal rules and box
borders of the reports, which repeat one box-drawing character). -/
def repChar (c : Char) (n : Nat) : String := String.mk (List.replicate n c)

/-- Literal segments of the sprint report banner f-string (source lines 114-126). -/
def sprintC0Lit0 : String := ("\n╔" ++ repChar '═' 62 ++ "╗\n║          📊 ОТЧЁТ ПО СПРИНТУ - ФИТОGUIDE                    ║\n╚" ++ repChar '═' 62 ++ "╝\n\n📅 Дата анализа: ")

def sprintC0Lit1 : String := "\n🎯 Здоровье спринта: "

def sprintC0Lit2 : String := "/100\n📈 Статус: "

def sprintC0Lit3 : String := ("\n\n" ++ repChar '━' 60 ++ "\n🎉 ДОСТИЖЕНИЯ\n" ++ repChar '━' 60 ++ "\n")

/-- Critical-risks section header chunk (source lines 131-135). -/
def sprintRisksHdr : String := ("\n" ++ repChar '━' 60 ++ "\n⚠️  КРИТИЧЕСКИЕ РИСКИ\n" ++ repChar '━' 60 ++ "\n")

/-- Literal segments of the metrics-and-workload f-string (source lines 142-158). -/
def sprintMetLit0 : String := ("\n" ++ repChar '━' 60 ++ "\n📊 МЕТРИКИ ВЫПОЛНЕНИЯ\n" ++ repChar '━' 60 ++ "\n  Запланировано:  ")

def sprintMetLit1 : String := " Story Points\n  Выполнено:      "

def sprintMetLit2 : String := " Story Points\n  Осталось:       "

def sprintMetLit3 : String := " Story Points\n  Процент:        "

def sprintMetLit4 : String := "%\n\n  Производительность команды: "

def sprintMetLit5 : String := " SP\n  Скорость потока: "

def sprintMetLit6 : String := " задач/день\n  Среднее время выполнения: "

def sprintMetLit7 : String := (" дней\n\n" ++ repChar '━' 60 ++ "\n👥 АНАЛИЗ НАГРУЗКИ КОМАНДЫ\n" ++ repChar '━' 60 ++ "\n")

/-- Overloaded-members block header (source line 163). -/
def overHdrChunk : String := "\n  🔴 ПЕРЕГРУЖЕНЫ:\n"

/-- Underutilized-members block header (source line 170). -/
def underHdrChunk : String := "\n  🟢 ОПТИМАЛЬНАЯ НАГРУЗКА:\n"

/-- Bottleneck section header chunk (source lines 177-181). -/
def sprintBotHdr : String := ("\n" ++ repChar '━' 60 ++ "\n🚧 УЗКИЕ МЕСТА В ПРОЦЕССЕ\n" ++ repChar '━' 60 ++ "\n")

/-- Immediate-actions section header chunk (source lines 191-195). -/
def sprintImmHdr : String := ("\n" ++ repChar '━' 60 ++ "\n🎯 СРОЧНЫЕ ДЕЙСТВИЯ (СДЕЛАТЬ СЕГОДНЯ)\n" ++ repChar '━' 60 ++ "\n")

/-- Short-term-improvements section header chunk (source lines 204-208). -/
def sprintShortHdr : String := ("\n" ++ repChar '━' 60 ++ "\n💡 УЛУЧШЕНИЯ НА БЛИЖАЙШИЕ ДНИ\n" ++ repChar '━' 60 ++ "\n")

/-- Retrospective section header chunk (source lines 218-222). -/
def sprintRetroHdr : String := ("\n" ++ repChar '━' 60 ++ "\n🗣️  ТЕМЫ ДЛЯ РЕТРОСПЕКТИВЫ\n" ++ repChar '━' 60 ++ "\n")

/-- Sprint report footer chunk (source lines 228-232). -/
def sprintFooterChunk : String := ("\n╔" ++ repChar '═' 62 ++ "╗\n║                    КОНЕЦ ОТЧЁТА                             ║\n╚" ++ repChar '═' 62 ++ "╝\n")

/-- Literal segments of the analysis report banner f-string (source lines 241-250). -/
def analysisC0Lit0 : String := ("\n╔" ++ repChar '═' 62 ++ "╗\n║          ✅ ЗАДАЧИ СОЗДАНЫ В YOUGILE                        ║\n╚" ++ repChar '═' 62 ++ "╝\n\n📊 Статус: ")

def analysisC0Lit1 : String := "\n✅ Создано задач: "

def analysisC0Lit2 : String := "\n❌ Ошибок: "

def analysisC0Lit3 : String := "\n\n"

/-- First rule line of the created-tasks section header (source line 254). -/
def analysisTasksHdr1 : String := (repChar '━' 60 ++ "\n")

/-- Title line of the created-tasks section header (source line 255). -/
def analysisTasksTitle : String := "📝 СОЗДАННЫЕ ЗАДАЧИ\n"

/-- Second rule line of the created-tasks section header (source line 256). -/
def analysisTasksHdr3 : String := (repChar '━' 60 ++ "\n\n")

/-- Analysis report footer chunk (source line 267). -/
def analysisFooterChunk : String := ("\n╚" ++ repChar '═' 62 ++ "╝\n")

/-- Literal segments of the governance report (source lines 275-285). -/
def govLit0 : String := ("\n╔" ++ repChar '═' 62 ++ "╗\n║          🔍 ПРОВЕРКА СООТВЕТСТВИЯ ПРАВИЛАМ                  ║\n╚" ++ repChar '═' 62 ++ "╝\n\nСтатус проверки: ВЫПОЛНЕНА\n\n")

def govLit1 : String := ("\n\n╚" ++ repChar '═' 62 ++ "╝\n")

/-- Literal segments of the calendar report (source lines 292-302). -/
def calLit0 : String := ("\n╔" ++ repChar '═' 62 ++ "╗\n║          📅 СИНХРОНИЗАЦИЯ С КАЛЕНДАРЁМ                      ║\n╚" ++ repChar '═' 62 ++ "╝\n\nСтатус: ВЫПОЛНЕНА\n\n")

def calLit1 : String := ("\n\n╚" ++ repChar '═' 62 ++ "╝\n")

/-- Data read for one overloaded team member (source lines 164-167): the four
interpolated fields as strings plus the numeric load_ratio. -/
structure OverMemberView where
  memberS : String
  roleS : String
  curS : String
  recS : String
  ratio : ℚ

/-- Data read for one underutilized team member (source line 172). -/
structure UnderMemberView where
  memberS : String
  roleS : String
  curS : String

/-- Data read for one bottleneck entry (source lines 182-186). -/
structure BotView where
  stageS : String
  waitS : String
  wipS : String
  evidS : String

/-- Data read for one immediate action (source lines 196-200). -/
structure ActView where
  actionS : String
  ownerS : String
  deadlineS : String
  impactS : String

/-- Data read for one short-term improvement (source lines 209-213). -/
structure ImpView where
  improvementS : String
  timeS : String
  impactS : String
  rationaleS : String

/-- Data read for one retrospective topic (source lines 223-226). -/
structure TopicView where
  topicS : String
  whyS : String
  outcomeS : String

/-- All values format_sprint_report reads from its payload, in source order;
the option fields are populated exactly when the corresponding truthiness
guard in the source passes. -/
structure SprintView where
  dateS : String
  healthS : String
  statusU : String
  achS : List String
  riskS : List String
  plannedS : String
  actualS : String
  remainingS : String
  completionS : String
  velS : String
  thrS : String
  cycS : String
  over : Option (List OverMemberView)
  under : Option (List UnderMemberView)
  bots : Option (List BotView)
  imms : Option (List ActView)
  shorts : Option (List ImpView)
  retros : Option (List TopicView)

/-- The guarded-section pattern of the renderers: test the truthiness of a
payload value and, when truthy, iterate it and read each element; a falsy
value yields no section. -/
def guardedViews (guardVal : JsonVal) (f : JsonVal → Except PyErr β) :
    Except PyErr (Option (List β)) :=
  if pyTruthy guardVal then (do
    let xs ← pyIter guardVal
    let vs ← mapE f xs
    pure (some vs))
  else pure none

/-- Reads of one overloaded member entry (source lines 164-167). -/
def overMemberView (m : JsonVal) : Except PyErr OverMemberView := do
  let nameJ ← pyGet m "member" .null
  let roleJ ← pyGet m "role" .null
  let curJ ← pyGet m "current_load_sp" .null
  let recJ ← pyGet m "recommended_load_sp" .null
  let lrJ ← pyGet m "load_ratio" (.num 1)
  let r ← pyNum lrJ
  pure ⟨pyStr nameJ, pyStr roleJ, pyStr curJ, pyStr recJ, r⟩

/-- Reads of one underutilized member entry (source line 172). -/
def underMemberView (m : JsonVal) : Except PyErr UnderMemberView := do
  let nameJ ← pyGet m "member" .null
  let roleJ ← pyGet m "role" .null
  let curJ ← pyGet m "current_load_sp" .null
  pure ⟨pyStr nameJ, pyStr roleJ, pyStr curJ⟩

/-- Reads of one bottleneck entry (source lines 182-186). -/
def botView (b : JsonVal) : Except PyErr BotView := do
  let stageJ ← pyGet b "stage" .null
  let waitJ ← pyGet b "avg_wait_time_days" .null
  let wipJ ← pyGet b "wip_count" .null
  let evidJ ← pyGet b "evidence" .null
  pure ⟨pyStr stageJ, pyStr waitJ, pyStr wipJ, pyStr evidJ⟩

/-- Reads of one immediate action (source lines 196-200). -/
def actView (a : JsonVal) : Except PyErr ActView := do
  let actionJ ← pyGet a "action" .null
  let ownerJ ← pyGet a "owner" .null
  let deadlineJ ← pyGet a "deadline" .null
  let impactJ ← pyGet a "expected_impact" .null
  pure ⟨pyStr actionJ, pyStr ownerJ, pyStr deadlineJ, pyStr impactJ⟩

/-- Reads of one short-term improvement (source lines 209-213). -/
def impView (a : JsonVal) : Except PyErr ImpView := do
  let impJ ← pyGet a "improvement" .null
  let timeJ ← pyGet a "implementation_time" .null
  let impactJ ← pyGet a "impact" .null
  let ratJ ← pyGet a "rationale" .null
  pure ⟨pyStr impJ, pyStr timeJ, pyStr impactJ, pyStr ratJ⟩

/-- Reads of one retrospective topic (source lines 223-226). -/
def topicView (t : JsonVal) : Except PyErr TopicView := do
  let topicJ ← pyGet t "topic" .null
  let whyJ ← pyGet t "why_important" .null
  let outJ ← pyGet t "expected_outcome" .null
  pure ⟨pyStr topicJ, pyStr whyJ, pyStr outJ⟩

/-- All payload reads of format_sprint_report (source lines 105-232) in source
order. The guard of the overloaded and underutilized blocks reads the key with
no default in the source before the loop re-reads it with a list default;
these agree whenever the guard passes, and are modeled by one read with a
null default. -/
def sprintView (data : JsonVal) : Except PyErr SprintView := do
  let summary ← pyGet data "executive_summary" (.obj [])
  let flow ← pyGet data "flow_metrics" (.obj [])
  let team ← pyGet data "team_performance" (.obj [])
  let actions ← pyGet data "actionable_recommendations" (.obj [])
  let meta ← pyGet data "analysis_metadata" (.obj [])
  let dateJ ← pyGet meta "analysis_date" (.str "не указана")
  let healthJ ← pyGet summary "sprint_health_score" (.str "N/A")
  let statusJ ← pyGet summary "overall_status" (.str "не определён")
  let stU ← pyUpper statusJ
  let achJ ← pyGet summary "key_achievements" (.arr [])
  let achs ← pyIter achJ
  let riskJ ← pyGet summary "critical_risks" (.arr [])
  let risks ← pyIter riskJ
  let burn ← pyGet flow "burn_down" (.obj [])
  let plannedJ ← pyGet burn "planned_sp" (.str "N/A")
  let actualJ ← pyGet burn "actual_sp" (.str "N/A")
  let remainingJ ← pyGet burn "remaining_sp" (.str "N/A")
  let completionJ ← pyGet burn "completion_percentage" (.str "N/A")
  let velA ← pyGet team "velocity_analysis" (.obj [])
  let velJ ← pyGet velA "current_velocity" (.str "N/A")
  let cumF ← pyGet flow "cumulative_flow" (.obj [])
  let thrJ ← pyGet cumF "throughput" (.str "N/A")
  let cta ← pyGet flow "cycle_time_analysis" (.obj [])
  let cycJ ← pyGet cta "average_cycle_time" (.str "N/A")
  let workload ← pyGet team "workload_distribution" (.obj [])
  let overJ ← pyGet workload "overloaded_members" .null
  let over ← guardedViews overJ overMemberView
  let underJ ← pyGet workload "underutilized_members" .null
  let under ← guardedViews underJ underMemberView
  let cum2 ← pyGet flow "cumulative_flow" (.obj [])
  let botJ ← pyGet cum2 "bottlenecks" (.arr [])
  let bots ← guardedViews botJ botView
  let immJ ← pyGet actions "immediate_actions" (.arr [])
  let imms ← guardedViews immJ actView
  let stJ ← pyGet actions "short_term_improvements" (.arr [])
  let shorts ← guardedViews stJ impView
  let retroJ ← pyGet data "retrospective_topics" (.arr [])
  let retros ← guardedViews retroJ topicView
  pure ⟨pyStr dateJ, pyStr healthJ, stU, achs.map pyStr, risks.map pyStr,
        pyStr plannedJ, pyStr actualJ, pyStr remainingJ, pyStr completionJ,
        pyStr velJ, pyStr thrJ, pyStr cycJ, over, under, bots, imms, shorts, retros⟩

/-- The banner chunk of the sprint report assembled from its view. -/
def sprintC0 (v : SprintView) : String :=
  sprintC0Lit0 ++ (v.dateS ++ (sprintC0Lit1 ++ (v.healthS ++ (sprintC0Lit2 ++ (v.statusU ++ sprintC0Lit3)))))

/-- One achievement line (source line 129). -/
def achChunk (s : String) : String := "  ✓ " ++ (s ++ "\n")

/-- One critical-risk line (source line 138). -/
def riskChunk (s : String) : String := "  ⚡ " ++ (s ++ "\n")

/-- The metrics-and-workload chunk (source lines 142-158). -/
def sprintMetricsChunk (v : SprintView) : String :=
  sprintMetLit0 ++ (v.plannedS ++ (sprintMetLit1 ++ (v.actualS ++ (sprintMetLit2 ++ (v.remainingS ++ (sprintMetLit3 ++ (v.completionS ++ (sprintMetLit4 ++ (v.velS ++ (sprintMetLit5 ++ (v.thrS ++ (sprintMetLit6 ++ (v.cycS ++ sprintMetLit7)))))))))))))

/-- The three chunks appended per overloaded member (source lines 165-167). -/
def overMemberChunks (m : OverMemberView) : List String :=
  ["    • " ++ (m.memberS ++ (" (" ++ (m.roleS ++ ")\n"))),
   "      Нагрузка: " ++ (m.curS ++ (" SP (норма: " ++ (m.recS ++ " SP)\n"))),
   "      Перегрузка: " ++ (toString (pyIntOfRat ((m.ratio - 1) * 100)) ++ "%\n")]

/-- The chunk appended per underutilized member (source line 172). -/
def underMemberChunks (m : UnderMemberView) : List String :=
  ["    • " ++ (m.memberS ++ (" (" ++ (m.roleS ++ (") - " ++ (m.curS ++ " SP\n")))))]

/-- The four chunks appended per bottleneck (source lines 183-186). -/
def botChunks (b : BotView) : List String :=
  ["  • Этап: " ++ (b.stageS ++ "\n"),
   "    Среднее время ожидания: " ++ (b.waitS ++ " дней\n"),
   "    Задач в работе: " ++ (b.wipS ++ "\n"),
   "    Причина: " ++ (b.evidS ++ "\n\n")]

/-- The four chunks appended per immediate action (source lines 197-200). -/
def actChunks (ia : Nat × ActView) : List String :=
  ["  " ++ (toString ia.1 ++ (". " ++ (ia.2.actionS ++ "\n"))),
   "     👤 Ответственный: " ++ (ia.2.ownerS ++ "\n"),
   "     📅 Дедлайн: " ++ (ia.2.deadlineS ++ "\n"),
   "     💡 Эффект: " ++ (ia.2.impactS ++ "\n\n")]

/-- The four chunks appended per short-term improvement (source lines 210-213). -/
def impChunks (ia : Nat × ImpView) : List String :=
  ["  " ++ (toString ia.1 ++ (". " ++ (ia.2.improvementS ++ "\n"))),
   "     ⏱️  Время внедрения: " ++ (ia.2.timeS ++ "\n"),
   "     📈 Эффект: " ++ (ia.2.impactS ++ "\n"),
   "     💬 Зачем: " ++ (ia.2.rationaleS ++ "\n\n")]

/-- The three chunks appended per retrospective topic (source lines 224-226). -/
def topicChunks (ia : Nat × TopicView) : List String :=
  ["  " ++ (toString ia.1 ++ (". " ++ (ia.2.topicS ++ "\n"))),
   "     ❓ Почему важно: " ++ (ia.2.whyS ++ "\n"),
   "     🎯 Ожидаемый результат: " ++ (ia.2.outcomeS ++ "\n\n")]

/-- The full ordered chunk sequence of the sprint report: one entry per
string appended to the report variable in the source, in append order. -/
def sprintChunksOf (v : SprintView) : List String :=
  [sprintC0 v] ++ v.achS.map achChunk ++ [sprintRisksHdr] ++ v.riskS.map riskChunk
  ++ [sprintMetricsChunk v]
  ++ (match v.over with
      | some ms => overHdrChunk :: (ms.map overMemberChunks).flatten
      | none => [])
  ++ (match v.under with
      | some ms => underHdrChunk :: (ms.map underMemberChunks).flatten
      | none => [])
  ++ (match v.bots with
      | some bs => sprintBotHdr :: (bs.map botChunks).flatten
      | none => [])
  ++ (match v.imms with
      | some xs => sprintImmHdr :: ((enumFromN 1 xs).map actChunks).flatten
      | none => [])
  ++ (match v.shorts with
      | some xs => sprintShortHdr :: ((enumFromN 1 xs).map impChunks).flatten
      | none => [])
  ++ (match v.retros with
      | some xs => sprintRetroHdr :: ((enumFromN 1 xs).map topicChunks).flatten
      | none => [])
  ++ [sprintFooterChunk]

/-- Chunk sequence of format_sprint_report on a payload. -/
def format_sprint_chunks (data : JsonVal) : Except PyErr (List String) :=
  (sprintView data).map sprintChunksOf

/-- Concatenation of chunks in append order. -/
def joinChunks (l : List String) : String := l.foldl (· ++ ·) ""

/-- format_sprint_report of the source: the concatenated report text. -/
def format_sprint_report (data : JsonVal) : Except PyErr String :=
  (format_sprint_chunks data).map joinChunks

/-- Data read for one task record in the analysis report (source lines
258-265): the status comparison, the title string, and the second line
payload (the remote id when created, the error text otherwise). -/
structure ATaskView where
  created : Bool
  titleS : String
  extraS : String

/-- Reads of one task record (source lines 258-265). -/
def aTaskView (t : JsonVal) : Except PyErr ATaskView := do
  let statusJ ← pyGet t "status" .null
  let titleJ ← pyGet t "title" (.str "Без названия")
  if jsonEqStr statusJ "created" then do
    let yid ← pyGet t "yougile_id" .null
    pure ⟨true, pyStr titleJ, pyStr yid⟩
  else do
    let errJ ← pyGet t "error" (.str "не указана")
    pure ⟨false, pyStr titleJ, pyStr errJ⟩

/-- All values format_analysis_report reads from its payload. -/
structure AnalysisView where
  statusU : String
  createdS : String
  failedS : String
  tasks : Option (List ATaskView)

/-- All payload reads of format_analysis_report (source lines 237-268) in
source order; the tasks option is populated exactly when the truthiness guard
on the tasks list passes. -/
def analysisView (data : JsonVal) : Except PyErr AnalysisView := do
  let statusJ ← pyGet data "status" (.str "не определён")
  let stU ← pyUpper statusJ
  let crJ ← pyGet data "tasks_created" (.num 0)
  let flJ ← pyGet data "tasks_failed" (.num 0)
  let tasksJ ← pyGet data "tasks" (.arr [])
  let tasks ← guardedViews tasksJ aTaskView
  pure ⟨stU, pyStr crJ, pyStr flJ, tasks⟩

/-- The banner chunk of the analysis report. -/
def analysisC0 (v : AnalysisView) : String :=
  analysisC0Lit0 ++ (v.statusU ++ (analysisC0Lit1 ++ (v.createdS ++ (analysisC0Lit2 ++ (v.failedS ++ analysisC0Lit3)))))

/-- The three chunks appended per task record (source lines 258-265). -/
def aTaskChunks (it : Nat × ATaskView) : List String :=
  [toString it.1 ++ (". " ++ ((if it.2.created then "✅" else "❌") ++ (" " ++ (it.2.titleS ++ "\n")))),
   (if it.2.created then "   🆔 YouGile ID: " ++ (it.2.extraS ++ "\n")
    else "   ⚠️  Ошибка: " ++ (it.2.extraS ++ "\n")),
   "\n"]

/-- The full ordered chunk sequence of the analysis report: one entry per
string appended to the report variable in the source, in append order. -/
def analysisChunksOf (v : AnalysisView) : List String :=
  [analysisC0 v]
  ++ (match v.tasks with
      | some ts =>
        analysisTasksHdr1 :: analysisTasksTitle :: analysisTasksHdr3
          :: ((enumFromN 1 ts).map aTaskChunks).flatten
      | none => [])
  ++ [analysisFooterChunk]

/-- Chunk sequence of format_analysis_report on a payload. -/
def format_analysis_chunks (data : JsonVal) : Except PyErr (List String) :=
  (analysisView data).map analysisChunksOf

/-- format_analysis_report of the source: the concatenated report text. -/
def format_analysis_report (data : JsonVal) : Except PyErr String :=
  (format_analysis_chunks data).map joinChunks

/-- format_governance_report of the source. -/
def format_governance_report (data : JsonVal) : String :=
  govLit0 ++ (dumpsInd 0 data ++ govLit1)

/-- format_calendar_report of the source. -/
def format_calendar_report (data : JsonVal) : String :=
  calLit0 ++ (dumpsInd 0 data ++ calLit1)

/-- format_human_readable_report of the source: dispatch on the request type
tag; unknown tags fall back to indented JSON serialization. -/
def format_human_readable_report (data : JsonVal) (rt : JsonVal) : Except PyErr String :=
  if jsonEqStr rt "sprint_analytics" || jsonEqStr rt "sprint" then format_sprint_report data
  else if jsonEqStr rt "analysis" then format_analysis_report data
  else if jsonEqStr rt "governance" then .ok (format_governance_report data)
  else if jsonEqStr rt "calendar_sync" then .ok (format_calendar_report data)
  else .ok (dumpsInd 0 data)

/-- Record appended for a successfully created task (source lines 452-457). -/
def createdRec (t r : JsonVal) : JsonVal :=
  .obj [("task_id", t.getD "task_id" .null), ("yougile_id", r.getD "id" .null),
        ("title", t.getD "title" .null), ("status", .str "created")]

/-- Record appended when creating a task failed (source lines 460-465); the
error field carries the exception text. -/
def failedRec (t : JsonVal) (e : String) : JsonVal :=
  .obj [("task_id", t.getD "task_id" .null), ("title", t.getD "title" .null),
        ("status", .str "failed"), ("error", .str e)]

/-- One iteration of the per-task creation loop (source lines 450-465). The
creation call is an oracle returning either the decoded API response or the
text of the raised exception; a per-task failure is recovered into a failed
record and the loop continues. When the call succeeds but returns a non-dict,
the .get on the response raises inside the try and is also recovered into a
failed record. A non-dict task entry raises in create_yougile_task and then
again at task.get inside the except block, escaping the loop. -/
def taskRecordOf (create1 : JsonVal → Except PyErr JsonVal) (t : JsonVal) : Except PyErr JsonVal :=
  match t with
  | .obj _ =>
    match create1 t with
    | .ok r =>
      match r with
      | .obj _ => .ok (createdRec t r)
      | _ => .ok (failedRec t "AttributeError: get called on a non-dict value")
    | .error e => .ok (failedRec t e)
  | _ => .error "AttributeError: get called on a non-dict value"

/-- Inner loop over the tasks of one epic (source lines 448-465). -/
def walkEpic (create1 : JsonVal → Except PyErr JsonVal) (epic : JsonVal) : Except PyErr (List JsonVal) := do
  let tasksJ ← pyGet epic "tasks" (.arr [])
  let ts ← pyIter tasksJ
  mapE (taskRecordOf create1) ts

/-- Count of task records with a given status string, as the list
comprehensions at source lines 470-471 compute it. -/
def countStatus (recs : List JsonVal) (s : String) : Nat :=
  recs.countP (fun t => jsonEqStr (t.getD "status" .null) s)

/-- Item assignment into an association list: replace in place when the key
exists, append otherwise (Python dict insertion order). -/
def setKVs : List (String × JsonVal) → String → JsonVal → List (String × JsonVal)
  | [], key, v => [(key, v)]
  | (k, w) :: rest, key, v => if k = key then (k, v) :: rest else (k, w) :: setKVs rest key v

/-- Python item assignment result[key] = value; only dicts reach this in the
source. -/
def JsonVal.setKey (j : JsonVal) (key : String) (v : JsonVal) : JsonVal :=
  match j with
  | .obj kvs => .obj (setKVs kvs key v)
  | _ => j

/-- process_analysis_request of the source (lines 419-486). The parse oracle
models json.loads on the extracted text (its error is the str of the
JSONDecodeError); the create oracle models create_yougile_task including its
environment checks and HTTP call. Only the parse failure is caught by the
except clause of the source; any other raised exception escapes as an error
of the Except monad. -/
def process_analysis_request (cid : Option String) (parse : String → Except PyErr JsonVal)
    (create : JsonVal → String → Except PyErr JsonVal) (gpt_response : String) :
    Except PyErr JsonVal :=
  match parse (extract_json_from_markdown gpt_response) with
  | .error e =>
    .ok (.obj [("status", .str "error"), ("request_type", .str "analysis"),
               ("message", .str ("Ошибка парсинга: " ++ e)),
               ("raw_response", .str (pyTake gpt_response 500))])
  | .ok parsed =>
    match cid with
    | none => do
      let base := JsonVal.obj [("status", .str "warning"), ("request_type", .str "analysis"),
        ("message", .str "Задачи проанализированы, но не созданы (не указан YOUGILE_COLUMN_ID)"),
        ("gpt_analysis", parsed), ("tasks_created", .num 0), ("tasks_failed", .num 0),
        ("tasks", .arr [])]
      let rep ← format_human_readable_report base (.str "analysis")
      pure (base.setKey "human_readable_report" (.str rep))
    | some c => do
      let epicsJ ← pyGet parsed "epics" (.arr [])
      let es ← pyIter epicsJ
      let recss ← mapE (walkEpic (fun t => create t c)) es
      let created_tasks := recss.flatten
      let base := JsonVal.obj [("status", .str "success"), ("request_type", .str "analysis"),
        ("tasks_created", .num (countStatus created_tasks "created" : ℚ)),
        ("tasks_failed", .num (countStatus created_tasks "failed" : ℚ)),
        ("tasks", .arr created_tasks), ("gpt_analysis", parsed)]
      let rep ← format_human_readable_report base (.str "analysis")
      pure (base.setKey "human_readable_report" (.str rep))

/-- Python hashability of an embedded JSON value: lists and dicts are
unhashable, so using one as a dict.get key raises TypeError. -/
def pyHashable : JsonVal → Bool
  | .arr _ => false
  | .obj _ => false
  | _ => true

/-- Canned per-type messages of process_other_request (source lines 501-506)
together with the dict.get default at line 511; dict.get on an unhashable
(list or dict valued) request type raises TypeError. -/
def messagesFor (rt : JsonVal) : Except PyErr String :=
  match rt with
  | .str "calendar_sync" => .ok "Анализ календарной синхронизации выполнен"
  | .str "governance" => .ok "Проверка governance правил выполнена"
  | .str "sprint_analytics" => .ok "Аналитика спринта выполнена"
  | .str "sprint" => .ok "Аналитика спринта выполнена"
  | .arr _ => .error "unhashable type: \x27list\x27"
  | .obj _ => .error "unhashable type: \x27dict\x27"
  | _ => .ok "Запрос обработан"

/-- process_other_request of the source (lines 489-523); the request type is
passed through unchanged from the dispatcher. -/
def process_other_request (parse : String → Except PyErr JsonVal) (gpt_response : String)
    (request_type : JsonVal) : Except PyErr JsonVal :=
  match parse (extract_json_from_markdown gpt_response) with
  | .error e =>
    .ok (.obj [("status", .str "error"), ("request_type", request_type),
               ("message", .str ("Ошибка парсинга: " ++ e)),
               ("raw_response", .str (pyTake gpt_response 500))])
  | .ok parsed => do
    let human ← format_human_readable_report parsed request_type
    let msg ← messagesFor request_type
    pure (.obj [("status", .str "success"), ("request_type", request_type),
      ("message", .str msg), ("analysis", parsed),
      ("human_readable_report", .str human)])

/-- The fixed prompt-key table of the dispatcher (source lines 540-547) on a
string request type; unknown keys default to analysis. -/
def promptKeyStr (s : String) : String :=
  if s = "analysis" then "analysis"
  else if s = "calendar" then "calendar_sync"
  else if s = "governance" then "governance"
  else if s = "sprint" then "sprint_analytics"
  else "analysis"

/-- Prompt-key resolution on an arbitrary request-type value (source line
547): hashable non-string values are not keys of the table and fall to the
default, while an unhashable (list or dict valued) request type makes
dict.get raise TypeError before any key is resolved. -/
def promptKey (rt : JsonVal) : Except PyErr String :=
  match rt with
  | .str s => .ok (promptKeyStr s)
  | .arr _ => .error "unhashable type: \x27list\x27"
  | .obj _ => .error "unhashable type: \x27dict\x27"
  | _ => .ok "analysis"

/-- The routing test of the dispatcher (source line 559). -/
def isAnalysisType (rt : JsonVal) : Bool := jsonEqStr rt "analysis"

/-- Outcome of the try block of main: early returns are serialized without
indentation in the source, the final result with a two-space indent. -/
inductive MainOut where
  | early (j : JsonVal)
  | final (j : JsonVal)

/-- The envelope carried by a dispatcher outcome. -/
def MainOut.json : MainOut → JsonVal
  | .early j => j
  | .final j => j

/-- Body of the try block of main (source lines 530-564). The getPrompt
oracle models PromptManager.get_prompt (which may raise while loading the
prompt file); the gpt oracle models call_yandex_gpt on the composed full
prompt (any of its failures, configuration or HTTP, is an Except error). -/
def mainBody (parse : String → Except PyErr JsonVal) (getPrompt : String → Except PyErr String)
    (gpt : String → Except PyErr String) (cid : Option String)
    (create : JsonVal → String → Except PyErr JsonVal) (input : JsonVal) :
    Except PyErr MainOut := do
  let rtJ ← pyGet input "type" (.str "analysis")
  let textJ ← pyGet input "text" (.str "")
  if pyTruthy textJ = false then
    pure (.early (.obj [("status", .str "error"), ("message", .str "Отсутствует текст запроса")]))
  else do
    let pk ← promptKey rtJ
    let prompt ← getPrompt pk
    if prompt = "" then
      pure (.early (.obj [("status", .str "error"),
        ("message", .str ("Промпт \x27" ++ (pk ++ "\x27 не найден")))]))
    else do
      let resp ← gpt (prompt ++ ("\n\nЗапрос:\n" ++ (pyStr textJ ++ "\nОтвет:")))
      let result ← if isAnalysisType rtJ then process_analysis_request cid parse create resp
                   else process_other_request parse resp rtJ
      pure (.final result)

/-- The envelope object produced by main: the result of the try block, or the
generic error envelope built by the top-level except (source lines 566-571). -/
def mainObj (parse : String → Except PyErr JsonVal) (getPrompt : String → Except PyErr String)
    (gpt : String → Except PyErr String) (cid : Option String)
    (create : JsonVal → String → Except PyErr JsonVal) (input : JsonVal) : JsonVal :=
  match mainBody parse getPrompt gpt cid create input with
  | .ok out => out.json
  | .error e => .obj [("status", .str "error"), ("message", .str ("Ошибка: " ++ e))]

/-- main of the source: the serialized envelope text it returns. -/
def mainStr (parse : String → Except PyErr JsonVal) (getPrompt : String → Except PyErr String)
    (gpt : String → Except PyErr String) (cid : Option String)
    (create : JsonVal → String → Except PyErr JsonVal) (input : JsonVal) : String :=
  match mainBody parse getPrompt gpt cid create input with
  | .ok (.early j) => dumpsCompact j
  | .ok (.final j) => dumpsInd 0 j
  | .error e => dumpsCompact (.obj [("status", .str "error"), ("message", .str ("Ошибка: " ++ e))])

/-- Event normalization of the entry point handler (source lines 578-596): a
dict with a string body is parsed as JSON with a fallback to a text wrapper,
a dict body is taken as is, a plain dict is the input itself, a string event
is parsed with the same fallback, and any other event yields an empty input. -/
def normalizeEvent (parse : String → Except PyErr JsonVal) (event : JsonVal) : JsonVal :=
  match event with
  | .obj kvs =>
    (match lookupKV kvs "body" with
     | some (.str s) =>
       (match parse s with
        | .ok j => j
        | .error _ => .obj [("text", .str s)])
     | some b => b
     | none => event)
  | .str s =>
    (match parse s with
     | .ok j => j
     | .error _ => .obj [("text", .str s)])
  | _ => .obj []

/-- Body of the try block of the entry point handler (source lines 578-605). -/
def handlerBody (parse : String → Except PyErr JsonVal) (getPrompt : String → Except PyErr String)
    (gpt : String → Except PyErr String) (cid : Option String)
    (create : JsonVal → String → Except PyErr JsonVal) (event : JsonVal) :
    Except PyErr (Nat × String) := do
  let input := normalizeEvent parse event
  pure (200, mainStr parse getPrompt gpt cid create input)

/-- handler of the source (lines 574-615): status code and body; exceptions
escaping the body are mapped to a 500 envelope by the except clause. In this
model the body is total, which is the content of the claim about completion
API failures staying at status 200. -/
def handler (parse : String → Except PyErr JsonVal) (getPrompt : String → Except PyErr String)
    (gpt : String → Except PyErr String) (cid : Option String)
    (create : JsonVal → String → Except PyErr JsonVal) (event : JsonVal) : Nat × String :=
  match handlerBody parse getPrompt gpt cid create event with
  | .ok r => r
  | .error e => (500, dumpsCompact (.obj [("status", .str "error"), ("message", .str e)]))

/-- The task list of one epic as the creation loop walks it (source line 448);
non-list values never reach this in a successful run. -/
def epicTasks (e : JsonVal) : List JsonVal :=
  match e.getD "tasks" (.arr []) with
  | .arr ts => ts
  | _ => []

/-- All task entries extracted from a parsed analysis response, walking the
epics and their task lists in input order (source lines 445-449). -/
def allTasks (parsed : JsonVal) : List JsonVal :=
  match parsed.getD "epics" (.arr []) with
  | .arr es => (es.map epicTasks).flatten
  | _ => []

/-- The record the creation loop appends for one task when the task is a dict
and a successful creation call returns a dict. -/
def recordOf (create1 : JsonVal → Except PyErr JsonVal) (t : JsonVal) : JsonVal :=
  match create1 t with
  | .ok r => createdRec t r
  | .error e => failedRec t e

/-- Number of task entries whose remote creation call fails. -/
def createFails (create1 : JsonVal → Except PyErr JsonVal) (ts : List JsonVal) : Nat :=
  ts.countP (fun t => match create1 t with
    | .ok _ => false
    | .error _ => true)

/-! Generic lemmas about the Except monad, effectful maps and strings. -/

theorem exceptBind_ok_iff {α β : Type u} (x : Except PyErr α) (f : α → Except PyErr β) (b : β) :
    (x >>= f) = .ok b ↔ ∃ a, x = .ok a ∧ f a = .ok b := by
  cases x <;> simp [Bind.bind, Except.bind]

@[simp] theorem except_pure_eq (a : α) : (pure a : Except PyErr α) = .ok a := rfl

@[simp] theorem except_bind_err (e : PyErr) (f : α → Except PyErr β) :
    ((Except.error e : Except PyErr α) >>= f) = Except.error e := rfl

@[simp] theorem except_bind_okv (a : α) (f : α → Except PyErr β) :
    ((Except.ok a : Except PyErr α) >>= f) = f a := rfl

theorem mapE_ok_of (f : α → Except PyErr β) (g : α → β) :
    ∀ l : List α, (∀ x ∈ l, f x = .ok (g x)) → mapE f l = .ok (l.map g) := by
  intro l
  induction l with
  | nil => intro _; rfl
  | cons x xs ih =>
    intro h
    simp only [mapE, h x (by simp), except_bind_okv, ih (fun y hy => h y (by simp [hy])),
      List.map_cons, except_pure_eq]

theorem mapE_mem_ok (f : α → Except PyErr β) :
    ∀ l : List α, ∀ ys : List β, mapE f l = .ok ys → ∀ y ∈ ys, ∃ x ∈ l, f x = .ok y := by
  intro l
  induction l with
  | nil =>
    intro ys h y hy
    simp only [mapE] at h
    cases h
    simp at hy
  | cons x xs ih =>
    intro ys h y hy
    simp only [mapE] at h
    rw [exceptBind_ok_iff] at h
    obtain ⟨b, hb, h⟩ := h
    rw [exceptBind_ok_iff] at h
    obtain ⟨bs, hbs, h⟩ := h
    simp only [except_pure_eq] at h
    cases h
    rcases List.mem_cons.1 hy with rfl | hy2
    · exact ⟨x, by simp, hb⟩
    · obtain ⟨x2, hx2, hf⟩ := ih bs hbs y hy2
      exact ⟨x2, by simp [hx2], hf⟩

theorem mapE_ok_forward (f : α → Except PyErr β) :
    ∀ l : List α, ∀ ys : List β, mapE f l = .ok ys → ∀ x ∈ l, ∃ y ∈ ys, f x = .ok y := by
  intro l
  induction l with
  | nil => intro ys h x hx; simp at hx
  | cons z zs ih =>
    intro ys h x hx
    simp only [mapE] at h
    rw [exceptBind_ok_iff] at h
    obtain ⟨b, hb, h⟩ := h
    rw [exceptBind_ok_iff] at h
    obtain ⟨bs, hbs, h⟩ := h
    simp only [except_pure_eq] at h
    cases h
    rcases List.mem_cons.1 hx with rfl | hx2
    · exact ⟨b, by simp, hb⟩
    · obtain ⟨y, hy, hf⟩ := ih bs hbs x hx2
      exact ⟨y, by simp [hy], hf⟩

theorem strData_append (a b : String) : (a ++ b).data = a.data ++ b.data := rfl

theorem isPrefixOf_self_append (l m : List Char) : l.isPrefixOf (l ++ m) = true := by
  induction l with
  | nil => simp [List.isPrefixOf]
  | cons c rest ih => simp [List.isPrefixOf, ih]

theorem append_ne_of_not_pref (a b t : String) (h : a.data.isPrefixOf t.data = false) :
    a ++ b ≠ t := by
  intro he
  have hd : a.data ++ b.data = t.data := by
    rw [← strData_append, he]
  rw [← hd, isPrefixOf_self_append] at h
  cases h

theorem pyGet_ok_getD {j : JsonVal} {k : String} {d v : JsonVal} (h : pyGet j k d = .ok v) :
    v = j.getD k d := by
  cases j <;> simp [pyGet] at h <;> exact h.symm

@[simp] theorem pyGet_obj (kvs : List (String × JsonVal)) (k : String) (d : JsonVal) :
    pyGet (.obj kvs) k d = .ok ((JsonVal.obj kvs).getD k d) := rfl

theorem pyGet_ok_obj {j : JsonVal} {k : String} {d v : JsonVal} (h : pyGet j k d = .ok v) :
    ∃ kvs, j = .obj kvs := by
  cases j <;> simp [pyGet] at h
  exact ⟨_, rfl⟩

/-! Lemmas about the extractor: the comment-truncation step removes every
double-slash occurrence, and no later step can reintroduce one. -/

theorem truncDS_cons_shape (c : Char) (rest : List Char) :
    truncDS (c :: rest) = [] ∨ ∃ t, truncDS (c :: rest) = c :: t := by
  cases rest with
  | nil => exact Or.inr ⟨[], rfl⟩
  | cons d r2 =>
    simp only [truncDS]
    by_cases h : ((c == '/') && (d == '/')) = true
    · simp [h]
    · right
      refine ⟨truncDS (d :: r2), ?_⟩
      simp [h]

theorem hasDS_truncDS (l : List Char) : hasDS (truncDS l) = false := by
  induction l with
  | nil => rfl
  | cons c rest ih =>
    cases rest with
    | nil => rfl
    | cons d r2 =>
      simp only [truncDS]
      by_cases h : ((c == '/') && (d == '/')) = true
      · simp [h, hasDS]
      · have h2 : ((c == '/') && (d == '/')) = false := by simpa using h
        rw [if_neg h]
        rcases truncDS_cons_shape d r2 with h0 | ⟨t, ht⟩
        · rw [h0]; rfl
        · rw [ht]
          rw [ht] at ih
          show (((c == '/') && (d == '/')) || hasDS (d :: t)) = false
          simp [h2, ih]

theorem hasDS_nl_cons (b : List Char) : hasDS ('\n' :: b) = hasDS b := by
  cases b with
  | nil => rfl
  | cons d t =>
    show ((('\n' == '/') && (d == '/')) || hasDS (d :: t)) = hasDS (d :: t)
    simp [show ('\n' == '/') = false from rfl]

theorem hasDS_append_sep (b : List Char) (hb : hasDS b = false) :
    ∀ a, hasDS a = false → hasDS (a ++ '\n' :: b) = false := by
  intro a
  induction a with
  | nil =>
    intro _
    simpa [hasDS_nl_cons] using hb
  | cons c rest ih =>
    intro ha
    cases rest with
    | nil =>
      show (((c == '/') && ('\n' == '/')) || hasDS ('\n' :: b)) = false
      simp [show ('\n' == '/') = false from rfl, hasDS_nl_cons, hb]
    | cons d r2 =>
      have ha2 : (((c == '/') && (d == '/')) || hasDS (d :: r2)) = false := ha
      rw [Bool.or_eq_false_iff] at ha2
      have hrest := ih ha2.2
      show (((c == '/') && (d == '/')) || hasDS ((d :: r2) ++ '\n' :: b)) = false
      rw [ha2.1, Bool.false_or]
      exact hrest

theorem hasDS_join (ls : List (List Char)) (h : ∀ x ∈ ls, hasDS x = false) :
    hasDS (joinLinesL ls) = false := by
  induction ls with
  | nil => rfl
  | cons l rest ih =>
    cases rest with
    | nil => exact h l (by simp)
    | cons m r2 =>
      show hasDS (l ++ '\n' :: joinLinesL (m :: r2)) = false
      exact hasDS_append_sep _ (ih (fun x hx => h x (by simp [List.mem_cons] at hx ⊢; tauto)))
        l (h l (by simp))

theorem hasDS_append_left (b : List Char) :
    ∀ a, hasDS (a ++ b) = false → hasDS a = false := by
  intro a
  induction a with
  | nil => intro _; rfl
  | cons c rest ih =>
    intro h
    cases rest with
    | nil => rfl
    | cons d r2 =>
      have h2 : (((c == '/') && (d == '/')) || hasDS ((d :: r2) ++ b)) = false := h
      rw [Bool.or_eq_false_iff] at h2
      show (((c == '/') && (d == '/')) || hasDS (d :: r2)) = false
      simp [h2.1, ih h2.2]

theorem hasDS_tail (c : Char) (l : List Char) (h : hasDS (c :: l) = false) :
    hasDS l = false := by
  cases l with
  | nil => rfl
  | cons d t =>
    have h2 : (((c == '/') && (d == '/')) || hasDS (d :: t)) = false := h
    exact (Bool.or_eq_false_iff.1 h2).2

theorem hasDS_append_right (b : List Char) :
    ∀ a, hasDS (a ++ b) = false → hasDS b = false := by
  intro a
  induction a with
  | nil => intro h; exact h
  | cons c rest ih =>
    intro h
    exact ih (hasDS_tail c (rest ++ b) h)

theorem pyStripL_factor (l : List Char) : ∃ u v, l = u ++ (pyStripL l ++ v) := by
  have h1 : List.takeWhile isPySpace l ++ List.dropWhile isPySpace l = l :=
    List.takeWhile_append_dropWhile isPySpace l
  have h2 : List.takeWhile isPySpace (List.dropWhile isPySpace l).reverse
      ++ List.dropWhile isPySpace (List.dropWhile isPySpace l).reverse
      = (List.dropWhile isPySpace l).reverse :=
    List.takeWhile_append_dropWhile isPySpace _
  have h3 := congrArg List.reverse h2
  rw [List.reverse_append, List.reverse_reverse] at h3
  refine ⟨List.takeWhile isPySpace l,
    (List.takeWhile isPySpace (List.dropWhile isPySpace l).reverse).reverse, ?_⟩
  conv_lhs => rw [← h1, ← h3]
  rfl

theorem hasDS_pyStripL (l : List Char) (h : hasDS l = false) : hasDS (pyStripL l) = false := by
  obtain ⟨u, v, huv⟩ := pyStripL_factor l
  rw [huv] at h
  exact hasDS_append_left _ _ (hasDS_append_right _ _ h)

theorem cleanDS_noDS (t : List Char) : hasDS (cleanDS t) = false := by
  apply hasDS_pyStripL
  apply hasDS_join
  intro x hx
  simp only [List.mem_map] at hx
  obtain ⟨y, _, rfl⟩ := hx
  exact hasDS_truncDS y

theorem extractCore_noDS (t0 : List Char) : hasDS (extractCore t0) = false := by
  simp only [extractCore]
  exact cleanDS_noDS _

/-- C6: after fence removal the extractor truncates every line at the first
double-slash occurrence, keeping only the prefix before it, even when the
double slash occurs inside a quoted JSON string value: the fenced example
extracts to its JSON payload, a URL line is cut at its double slash, and no
extractor output ever contains a double-slash occurrence. -/
theorem c6_extractor_comment_truncation :
    extract_json_from_markdown "```json\n\x7b\"a\":1\x7d\n```" = "\x7b\"a\":1\x7d"
    ∧ extract_json_from_markdown "\x7b\"url\": \"http://x.com\"\x7d" = "\x7b\"url\": \"http:"
    ∧ ∀ s : String, hasDS (extract_json_from_markdown s).data = false := by
  refine ⟨by decide, by decide, fun s => ?_⟩
  exact extractCore_noDS s.data

/-- C7: when the model text does not parse as JSON, both flows locally return
an error envelope carrying the parser message and the first 500 characters of
the raw text, and the decode failure is not propagated (the result is an ok
value of the Except monad, not an error). -/
theorem c7_parse_error_envelope (cid : Option String) (parse : String → Except PyErr JsonVal)
    (create : JsonVal → String → Except PyErr JsonVal) (g : String) (rt : JsonVal) (e : PyErr)
    (h : parse (extract_json_from_markdown g) = .error e) :
    process_analysis_request cid parse create g =
      .ok (.obj [("status", .str "error"), ("request_type", .str "analysis"),
                 ("message", .str ("Ошибка парсинга: " ++ e)),
                 ("raw_response", .str (pyTake g 500))])
    ∧ process_other_request parse g rt =
      .ok (.obj [("status", .str "error"), ("request_type", rt),
                 ("message", .str ("Ошибка парсинга: " ++ e)),
                 ("raw_response", .str (pyTake g 500))])
    ∧ (pyTake g 500).length ≤ 500 := by
  unfold process_analysis_request process_other_request
  rw [h]
  refine ⟨rfl, rfl, ?_⟩
  have hlen : (pyTake g 500).length = (g.data.take 500).length := rfl
  rw [hlen, List.length_take]
  exact min_le_left _ _

/-- Closed witness for c7_parse_error_envelope at a concrete parser, flow
input and request type. -/
theorem c7_parse_error_envelope_witness :
    process_analysis_request none (fun _ => .error "boom") (fun _ _ => .error "no") "raw" =
      .ok (.obj [("status", .str "error"), ("request_type", .str "analysis"),
                 ("message", .str ("Ошибка парсинга: " ++ "boom")),
                 ("raw_response", .str (pyTake "raw" 500))])
    ∧ (pyTake "raw" 500).length ≤ 500 := by
  have h := c7_parse_error_envelope none (fun _ => .error "boom") (fun _ _ => .error "no")
    "raw" (.str "sprint") "boom" rfl
  exact ⟨h.1, h.2.2⟩

/-- C8: with no task-destination column configured, a parsing success returns
a warning envelope with zero created and failed tasks and an empty task list,
carrying the parsed analysis; and the result does not depend on the
task-creation oracle, so no creation call is attempted. -/
theorem c8_missing_column_warning (parse : String → Except PyErr JsonVal)
    (create1 create2 : JsonVal → String → Except PyErr JsonVal) (g : String) (parsed : JsonVal)
    (h : parse (extract_json_from_markdown g) = .ok parsed) :
    ∃ env, process_analysis_request none parse create1 g = .ok env
      ∧ env.getD "status" .null = .str "warning"
      ∧ env.getD "tasks_created" .null = .num 0
      ∧ env.getD "tasks_failed" .null = .num 0
      ∧ env.getD "tasks" .null = .arr []
      ∧ env.getD "gpt_analysis" .null = parsed
      ∧ process_analysis_request none parse create1 g =
          process_analysis_request none parse create2 g := by
  unfold process_analysis_request
  rw [h]
  exact ⟨_, rfl, rfl, rfl, rfl, rfl, rfl, rfl⟩

/-- Closed witness for c8_missing_column_warning at a concrete parser output. -/
theorem c8_missing_column_warning_witness :
    (match process_analysis_request none (fun _ => .ok (.obj [("epics", .arr [])]))
        (fun _ _ => .error "no") "x" with
     | .ok env =>
        env.getD "status" .null = .str "warning"
        ∧ env.getD "tasks_created" .null = .num 0
        ∧ env.getD "tasks_failed" .null = .num 0
        ∧ env.getD "tasks" .null = .arr []
        ∧ env.getD "gpt_analysis" .null = .obj [("epics", .arr [])]
     | .error _ => False)
    ∧ process_analysis_request none (fun _ => .ok (.obj [("epics", .arr [])]))
        (fun _ _ => .error "no") "x"
      = process_analysis_request none (fun _ => .ok (.obj [("epics", .arr [])]))
        (fun _ _ => .ok .null) "x" := by
  obtain ⟨env, h1, h2, h3, h4, h5, h6, hsame⟩ :=
    c8_missing_column_warning (fun _ => .ok (.obj [("epics", .arr [])]))
      (fun _ _ => .error "no") (fun _ _ => .ok .null) "x" (.obj [("epics", .arr [])]) rfl
  constructor
  · rw [h1]
    exact ⟨h2, h3, h4, h5, h6⟩
  · exact hsame

/-- C9: a request with falsy (empty or absent) text returns the error envelope
immediately, and the result does not depend on the completion oracle or the
task-creation oracle, so no remote call is made. -/
theorem c9_empty_text_short_circuit (parse : String → Except PyErr JsonVal)
    (gp : String → Except PyErr String) (gpt1 gpt2 : String → Except PyErr String)
    (cid : Option String) (create1 create2 : JsonVal → String → Except PyErr JsonVal)
    (kvs : List (String × JsonVal))
    (h : pyTruthy ((JsonVal.obj kvs).getD "text" (.str "")) = false) :
    mainObj parse gp gpt1 cid create1 (.obj kvs) =
      .obj [("status", .str "error"), ("message", .str "Отсутствует текст запроса")]
    ∧ mainObj parse gp gpt1 cid create1 (.obj kvs) =
        mainObj parse gp gpt2 cid create2 (.obj kvs) := by
  have hb : ∀ (gpt : String → Except PyErr String)
      (create : JsonVal → String → Except PyErr JsonVal),
      mainBody parse gp gpt cid create (.obj kvs) = .ok (.early (.obj
        [("status", .str "error"), ("message", .str "Отсутствует текст запроса")])) := by
    intro gpt create
    unfold mainBody
    simp only [pyGet_obj, except_bind_okv]
    rw [if_pos h]
    rfl
  refine ⟨?_, ?_⟩
  · unfold mainObj
    rw [hb gpt1 create1]
    rfl
  · unfold mainObj
    rw [hb gpt1 create1, hb gpt2 create2]

/-- Closed witness for c9_empty_text_short_circuit on a request with an empty
text field. -/
theorem c9_empty_text_short_circuit_witness :
    mainObj (fun _ => .error "p") (fun _ => .ok "P") (fun _ => .ok "resp") none
      (fun _ _ => .ok .null) (.obj [("type", .str "analysis"), ("text", .str "")]) =
      .obj [("status", .str "error"), ("message", .str "Отсутствует текст запроса")] :=
  (c9_empty_text_short_circuit (fun _ => .error "p") (fun _ => .ok "P") (fun _ => .ok "resp")
    (fun _ => .error "gone") none (fun _ _ => .ok .null) (fun _ _ => .error "x")
    [("type", .str "analysis"), ("text", .str "")] (by decide)).1

/-- Every ok outcome of the analysis flow carries a status among success,
warning and error. -/
theorem process_analysis_status (cid : Option String) (parse : String → Except PyErr JsonVal)
    (create : JsonVal → String → Except PyErr JsonVal) (g : String) (j : JsonVal)
    (h : process_analysis_request cid parse create g = .ok j) :
    j.getD "status" .null = .str "success" ∨ j.getD "status" .null = .str "warning"
      ∨ j.getD "status" .null = .str "error" := by
  unfold process_analysis_request at h
  cases hp : parse (extract_json_from_markdown g) with
  | error e =>
    rw [hp] at h
    cases h
    right; right; rfl
  | ok parsed =>
    rw [hp] at h
    cases cid with
    | none =>
      simp only [exceptBind_ok_iff, except_pure_eq] at h
      obtain ⟨rep, hrep, h⟩ := h
      cases h
      right; left; rfl
    | some c =>
      simp only [exceptBind_ok_iff, except_pure_eq] at h
      obtain ⟨epicsJ, h1, es, h2, recss, h3, rep, h4, h⟩ := h
      cases h
      left; rfl

/-- Every ok outcome of the generic report flow carries a status among success
and error. -/
theorem process_other_status (parse : String → Except PyErr JsonVal) (g : String)
    (rt : JsonVal) (j : JsonVal) (h : process_other_request parse g rt = .ok j) :
    j.getD "status" .null = .str "success" ∨ j.getD "status" .null = .str "error" := by
  unfold process_other_request at h
  cases hp : parse (extract_json_from_markdown g) with
  | error e =>
    rw [hp] at h
    cases h
    right; rfl
  | ok parsed =>
    rw [hp] at h
    simp only [exceptBind_ok_iff, except_pure_eq] at h
    obtain ⟨human, hh, msg, hm, h⟩ := h
    cases h
    left; rfl

/-- Every ok outcome of the dispatcher try block carries a status among
success, warning and error. -/
theorem mainOut_status (parse : String → Except PyErr JsonVal)
    (gp : String → Except PyErr String) (gpt : String → Except PyErr String)
    (cid : Option String) (create : JsonVal → String → Except PyErr JsonVal)
    (input : JsonVal) (out : MainOut)
    (h : mainBody parse gp gpt cid create input = .ok out) :
    out.json.getD "status" .null = .str "success"
      ∨ out.json.getD "status" .null = .str "warning"
      ∨ out.json.getD "status" .null = .str "error" := by
  unfold mainBody at h
  simp only [exceptBind_ok_iff, except_pure_eq] at h
  obtain ⟨rtJ, h1, textJ, h2, h⟩ := h
  split at h
  · cases h
    right; right; rfl
  · simp only [exceptBind_ok_iff, except_pure_eq] at h
    obtain ⟨pk, hpk, prompt, hp, h⟩ := h
    split at h
    · cases h
      right; right; rfl
    · simp only [exceptBind_ok_iff, except_pure_eq] at h
      obtain ⟨resp, hresp, h⟩ := h
      split at h
      · simp only [exceptBind_ok_iff, except_pure_eq, Except.ok.injEq] at h
        obtain ⟨result, hres, hfin⟩ := h
        subst hfin
        exact process_analysis_status cid parse create resp result hres
      · simp only [exceptBind_ok_iff, except_pure_eq, Except.ok.injEq] at h
        obtain ⟨result, hres, hfin⟩ := h
        subst hfin
        rcases process_other_status parse resp rtJ result hres with hs | hs
        · exact Or.inl hs
        · exact Or.inr (Or.inr hs)

/-- C10: the dispatcher never raises: on every input and every oracle
behavior it produces an envelope whose status field is success, warning or
error, serialized by one of the two dumps forms of the source. -/
theorem c10_dispatcher_total_status (parse : String → Except PyErr JsonVal)
    (gp : String → Except PyErr String) (gpt : String → Except PyErr String)
    (cid : Option String) (create : JsonVal → String → Except PyErr JsonVal)
    (input : JsonVal) :
    ((mainObj parse gp gpt cid create input).getD "status" .null = .str "success"
      ∨ (mainObj parse gp gpt cid create input).getD "status" .null = .str "warning"
      ∨ (mainObj parse gp gpt cid create input).getD "status" .null = .str "error")
    ∧ (mainStr parse gp gpt cid create input = dumpsCompact (mainObj parse gp gpt cid create input)
      ∨ mainStr parse gp gpt cid create input = dumpsInd 0 (mainObj parse gp gpt cid create input)) := by
  constructor
  · unfold mainObj
    cases hmb : mainBody parse gp gpt cid create input with
    | error e => right; right; rfl
    | ok out => exact mainOut_status parse gp gpt cid create input out hmb
  · unfold mainStr mainObj
    cases hmb : mainBody parse gp gpt cid create input with
    | error e => left; rfl
    | ok out =>
      cases out with
      | early j => left; rfl
      | final j => right; rfl

/-- Mapping a function over an ok-final continuation is the map of the Except
functor. -/
theorem exceptBind_pure_comp {α β : Type} (x : Except PyErr α) (f : α → β) :
    (x >>= fun a => pure (f a)) = x.map f := by
  cases x <;> rfl

/-- C2 counterexample: with the unknown request type foo the dispatcher does
resolve the prompt key to analysis, but the produced envelope is the
generic-flow envelope with request_type foo and the fallback message, while
the task-creation flow on the same model response stamps request_type
analysis; so the unknown type is not routed through the task-creation flow. -/
theorem c2_unknown_type_counterexample :
    promptKey (.str "foo") = .ok "analysis"
    ∧ mainObj (fun s => if s = "\x7b\x7d" then .ok (.obj []) else .error "bad")
        (fun _ => .ok "P") (fun _ => .ok "\x7b\x7d") (some "col") (fun _ _ => .ok (.obj []))
        (.obj [("type", .str "foo"), ("text", .str "hi")]) =
      .obj [("status", .str "success"), ("request_type", .str "foo"),
            ("message", .str "Запрос обработан"), ("analysis", .obj []),
            ("human_readable_report", .str "\x7b\x7d")]
    ∧ (match process_analysis_request (some "col")
          (fun s => if s = "\x7b\x7d" then .ok (.obj []) else .error "bad")
          (fun _ _ => .ok (.obj [])) "\x7b\x7d" with
       | .ok j => j.getD "request_type" .null
       | .error _ => .null) = .str "analysis"
    ∧ JsonVal.str "foo" ≠ JsonVal.str "analysis" := by
  refine ⟨rfl, rfl, rfl, ?_⟩
  intro h
  injection h with h2
  exact absurd h2 (by decide)

/-- C2 amended: a request whose type is hashable (not a JSON list or object,
on which the prompt-table lookup raises TypeError into the generic error
envelope) and none of analysis, calendar, governance, sprint resolves the
prompt key to analysis but is routed through the generic report flow with the
original request type, not through the task-creation flow. -/
theorem c2_unknown_type_amended (parse : String → Except PyErr JsonVal)
    (gp : String → Except PyErr String) (gpt : String → Except PyErr String)
    (cid : Option String) (create : JsonVal → String → Except PyErr JsonVal)
    (kvs : List (String × JsonVal)) (rtJ : JsonVal) (prompt resp : String)
    (hrt : lookupKV kvs "type" = some rtJ)
    (hhash : pyHashable rtJ = true)
    (hne1 : rtJ ≠ .str "analysis") (hne2 : rtJ ≠ .str "calendar")
    (hne3 : rtJ ≠ .str "governance") (hne4 : rtJ ≠ .str "sprint")
    (htext : pyTruthy ((JsonVal.obj kvs).getD "text" (.str "")) = true)
    (hp : gp "analysis" = .ok prompt) (hpne : prompt ≠ "")
    (hgpt : gpt (prompt ++ ("\n\nЗапрос:\n" ++
      (pyStr ((JsonVal.obj kvs).getD "text" (.str "")) ++ "\nОтвет:"))) = .ok resp) :
    promptKey rtJ = .ok "analysis"
    ∧ mainBody parse gp gpt cid create (.obj kvs) =
        (process_other_request parse resp rtJ).map MainOut.final := by
  have hkey : promptKey rtJ = .ok "analysis" := by
    cases rtJ with
    | str s =>
      have h1 : s ≠ "analysis" := fun hh => hne1 (by rw [hh])
      have h2 : s ≠ "calendar" := fun hh => hne2 (by rw [hh])
      have h3 : s ≠ "governance" := fun hh => hne3 (by rw [hh])
      have h4 : s ≠ "sprint" := fun hh => hne4 (by rw [hh])
      simp [promptKey, promptKeyStr, h1, h2, h3, h4]
    | null => rfl
    | bool b => rfl
    | num q => rfl
    | arr xs => simp [pyHashable] at hhash
    | obj o => simp [pyHashable] at hhash
  have hana : isAnalysisType rtJ = false := by
    cases rtJ with
    | str s =>
      have h1 : s ≠ "analysis" := fun hh => hne1 (by rw [hh])
      simp [isAnalysisType, jsonEqStr, h1]
    | null => rfl
    | bool b => rfl
    | num q => rfl
    | arr xs => rfl
    | obj o => rfl
  refine ⟨hkey, ?_⟩
  have hg : (JsonVal.obj kvs).getD "type" (.str "analysis") = rtJ := by
    simp [JsonVal.getD, hrt]
  unfold mainBody
  simp only [pyGet_obj, except_bind_okv]
  rw [hg, if_neg (by simp [htext]), hkey]
  simp only [except_bind_okv]
  rw [hp]
  simp only [except_bind_okv]
  rw [if_neg hpne, hgpt]
  simp only [except_bind_okv]
  rw [hana]
  simp only [Bool.false_eq_true, if_false]
  exact exceptBind_pure_comp _ _

/-- Closed witness for c2_unknown_type_amended at the concrete unknown type
foo and a stub completion oracle. -/
theorem c2_unknown_type_amended_witness :
    promptKey (.str "foo") = .ok "analysis"
    ∧ mainBody (fun s => if s = "\x7b\x7d" then .ok (.obj []) else .error "bad")
        (fun _ => .ok "P") (fun _ => .ok "\x7b\x7d") (some "col") (fun _ _ => .ok (.obj []))
        (.obj [("type", .str "foo"), ("text", .str "hi")]) =
      (process_other_request (fun s => if s = "\x7b\x7d" then .ok (.obj []) else .error "bad")
        "\x7b\x7d" (.str "foo")).map MainOut.final :=
  c2_unknown_type_amended (fun s => if s = "\x7b\x7d" then .ok (.obj []) else .error "bad")
    (fun _ => .ok "P") (fun _ => .ok "\x7b\x7d") (some "col") (fun _ _ => .ok (.obj []))
    [("type", .str "foo"), ("text", .str "hi")] (.str "foo") "P" "\x7b\x7d"
    rfl rfl (by intro h; injection h with h2; exact absurd h2 (by decide))
    (by intro h; injection h with h2; exact absurd h2 (by decide))
    (by intro h; injection h with h2; exact absurd h2 (by decide))
    (by intro h; injection h with h2; exact absurd h2 (by decide))
    (by decide) rfl (by decide) rfl

/-- C3 counterexample: when the completion oracle raises, the dispatcher
catches the exception itself and returns an error envelope, and the entry
point returns status code 200 (not 500) with that envelope; so completion
failures do not escape the dispatcher to the entry point. -/
theorem c3_completion_error_counterexample :
    (handler (fun _ => .error "nope") (fun _ => .ok "P") (fun _ => .error "boom") none
      (fun _ _ => .error "no") (.obj [("text", .str "hi")])).1 = 200
    ∧ (200 : Nat) ≠ 500
    ∧ (mainObj (fun _ => .error "nope") (fun _ => .ok "P") (fun _ => .error "boom") none
        (fun _ _ => .error "no")
        (normalizeEvent (fun _ => .error "nope") (.obj [("text", .str "hi")]))).getD
        "status" .null = .str "error"
    ∧ (mainObj (fun _ => .error "nope") (fun _ => .ok "P") (fun _ => .error "boom") none
        (fun _ _ => .error "no")
        (normalizeEvent (fun _ => .error "nope") (.obj [("text", .str "hi")]))).getD
        "message" .null = .str ("Ошибка: " ++ "boom") := by
  refine ⟨rfl, by decide, rfl, rfl⟩

/-- C3 amended: an exception raised while calling the completion API is caught
inside the dispatcher and turned into an error envelope; the entry point then
returns it with status code 200, the same outward status as JSON-decode and
per-task failures; a 500 can only arise from the entry point code itself. -/
theorem c3_completion_error_amended (parse : String → Except PyErr JsonVal)
    (gp : String → Except PyErr String) (cid : Option String)
    (create : JsonVal → String → Except PyErr JsonVal) (event : JsonVal) (e : PyErr)
    (gptF : String → Except PyErr String) (hgpt : ∀ p, gptF p = .error e) :
    (handler parse gp gptF cid create event).1 = 200
    ∧ (mainObj parse gp gptF cid create (normalizeEvent parse event)).getD "status" .null
        = .str "error" := by
  constructor
  · rfl
  · generalize normalizeEvent parse event = input
    unfold mainObj
    cases hmb : mainBody parse gp gptF cid create input with
    | error e2 => rfl
    | ok out =>
      unfold mainBody at hmb
      simp only [exceptBind_ok_iff, except_pure_eq] at hmb
      obtain ⟨rtJ, h1, textJ, h2, hmb⟩ := hmb
      split at hmb
      · cases hmb
        rfl
      · simp only [exceptBind_ok_iff, except_pure_eq] at hmb
        obtain ⟨pk, hpk, prompt, hp, hmb⟩ := hmb
        split at hmb
        · cases hmb
          rfl
        · rw [hgpt] at hmb
          simp at hmb

/-- Closed witness for c3_completion_error_amended with a concrete event and
an always-failing completion oracle. -/
theorem c3_completion_error_amended_witness :
    (handler (fun _ => .error "nope") (fun _ => .ok "P") (fun _ => .error "boom") none
      (fun _ _ => .error "no") (.obj [("text", .str "hi")])).1 = 200
    ∧ (mainObj (fun _ => .error "nope") (fun _ => .ok "P") (fun _ => .error "boom") none
        (fun _ _ => .error "no")
        (normalizeEvent (fun _ => .error "nope") (.obj [("text", .str "hi")]))).getD
        "status" .null = .str "error" :=
  c3_completion_error_amended (fun _ => .error "nope") (fun _ => .ok "P") none
    (fun _ _ => .error "no") (.obj [("text", .str "hi")]) "boom"
    (fun _ => .error "boom") (fun _ => rfl)

/-- Except map producing an ok value factors through an ok argument. -/
theorem exceptMap_ok_iff {α β : Type} (x : Except PyErr α) (f : α → β) (b : β) :
    x.map f = .ok b ↔ ∃ a, x = .ok a ∧ f a = b := by
  cases x <;> simp [Except.map]

/-- A successful guarded section is present exactly when its guard value is
truthy. -/
theorem guardedViews_isSome {β : Type} {g : JsonVal} {f : JsonVal → Except PyErr β}
    {o : Option (List β)} (h : guardedViews g f = .ok o) : o.isSome = pyTruthy g := by
  unfold guardedViews at h
  split at h
  · next hcond =>
    simp only [exceptBind_ok_iff, except_pure_eq, Except.ok.injEq] at h
    obtain ⟨xs, hxs, vs, hvs, ho⟩ := h
    subst ho
    simp [hcond]
  · next hcond =>
    simp only [except_pure_eq, Except.ok.injEq] at h
    subst h
    simp at hcond
    simp [hcond]

/-- A successful guarded section over a non-empty list value is exactly the
mapped element reads. -/
theorem guardedViews_arr {β : Type} {ms : List JsonVal} {f : JsonVal → Except PyErr β}
    {o : Option (List β)} (h : guardedViews (.arr ms) f = .ok o) (hne : ms ≠ []) :
    ∃ vs, o = some vs ∧ mapE f ms = .ok vs := by
  unfold guardedViews at h
  rw [if_pos (by simp [pyTruthy, hne])] at h
  simp only [exceptBind_ok_iff, except_pure_eq, Except.ok.injEq, pyIter] at h
  obtain ⟨xs, hxs, vs, hvs, ho⟩ := h
  cases hxs
  exact ⟨vs, ho.symm, hvs⟩

/-- Inversion facts about a successful sprint view extraction: the three
guarded sections are present exactly when the corresponding payload list is
truthy, and the overloaded-member views come from mapping the member reads
over the payload list. -/
theorem sprintView_facts (data : JsonVal) (v : SprintView) (h : sprintView data = .ok v) :
    v.bots.isSome = pyTruthy (((data.getD "flow_metrics" (.obj [])).getD "cumulative_flow"
        (.obj [])).getD "bottlenecks" (.arr []))
    ∧ v.imms.isSome = pyTruthy ((data.getD "actionable_recommendations" (.obj [])).getD
        "immediate_actions" (.arr []))
    ∧ v.retros.isSome = pyTruthy (data.getD "retrospective_topics" (.arr []))
    ∧ ∀ ms, ((data.getD "team_performance" (.obj [])).getD "workload_distribution"
        (.obj [])).getD "overloaded_members" .null = .arr ms → ms ≠ [] →
        ∃ mvs, v.over = some mvs ∧ mapE overMemberView ms = .ok mvs := by
  unfold sprintView at h
  simp only [exceptBind_ok_iff, except_pure_eq, Except.ok.injEq] at h
  obtain ⟨summary, hsummary, flow, hflow, team, hteam, actions, hactions, meta, hmeta,
    dateJ, hdateJ, healthJ, hhealthJ, statusJ, hstatusJ, stU, hstU, achJ, hachJ,
    achs, hachs, riskJ, hriskJ, risks, hrisks, burn, hburn, plannedJ, hplannedJ,
    actualJ, hactualJ, remainingJ, hremainingJ, completionJ, hcompletionJ,
    velA, hvelA, velJ, hvelJ, cumF, hcumF, thrJ, hthrJ, cta, hcta, cycJ, hcycJ,
    workload, hworkload, overJ, hoverJ, over, hover, underJ, hunderJ, under, hunder,
    cum2, hcum2, botJ, hbotJ, bots, hbots, immJ, himmJ, imms, himms,
    stJ, hstJ, shorts, hshorts, retroJ, hretroJ, retros, hretros, hv⟩ := h
  subst hv
  have e1 : flow = data.getD "flow_metrics" (.obj []) := pyGet_ok_getD hflow
  have e2 : cum2 = flow.getD "cumulative_flow" (.obj []) := pyGet_ok_getD hcum2
  have e3 : botJ = cum2.getD "bottlenecks" (.arr []) := pyGet_ok_getD hbotJ
  have e4 : actions = data.getD "actionable_recommendations" (.obj []) := pyGet_ok_getD hactions
  have e5 : immJ = actions.getD "immediate_actions" (.arr []) := pyGet_ok_getD himmJ
  have e6 : retroJ = data.getD "retrospective_topics" (.arr []) := pyGet_ok_getD hretroJ
  have e7 : team = data.getD "team_performance" (.obj []) := pyGet_ok_getD hteam
  have e8 : workload = team.getD "workload_distribution" (.obj []) := pyGet_ok_getD hworkload
  have e9 : overJ = workload.getD "overloaded_members" .null := pyGet_ok_getD hoverJ
  refine ⟨?_, ?_, ?_, ?_⟩
  · rw [← e1, ← e2, ← e3]
    exact guardedViews_isSome hbots
  · rw [← e4, ← e5]
    exact guardedViews_isSome himms
  · rw [← e6]
    exact guardedViews_isSome hretros
  · intro ms hms hmsne
    have hoJ : overJ = .arr ms := by rw [e9, e8, e7]; exact hms
    rw [hoJ] at hover
    obtain ⟨mvs, homvs, hmvs⟩ := guardedViews_arr hover hmsne
    exact ⟨mvs, homvs, hmvs⟩

/-- For nonnegative rationals, Python int() truncation agrees with the floor. -/
theorem pyIntOfRat_nonneg (q : ℚ) (h : 0 ≤ q) : pyIntOfRat q = ⌊q⌋ := by
  unfold pyIntOfRat
  rw [if_pos h, Rat.floor_def]
  have hnum : 0 ≤ q.num := Rat.num_nonneg.2 h
  rw [show ((q.num.toNat / q.den : ℕ) : ℤ) = (q.num.toNat : ℤ) / (q.den : ℤ) from by
    exact_mod_cast rfl]
  rw [Int.toNat_of_nonneg hnum]

/-- The member view of an overloaded member dict with a numeric load ratio. -/
theorem overMemberView_ratio (m : JsonVal) (mk2 : List (String × JsonVal)) (r : ℚ)
    (hm : m = .obj mk2) (hr : m.getD "load_ratio" (.num 1) = .num r) :
    overMemberView m = .ok ⟨pyStr (m.getD "member" .null), pyStr (m.getD "role" .null),
      pyStr (m.getD "current_load_sp" .null), pyStr (m.getD "recommended_load_sp" .null), r⟩ := by
  subst hm
  unfold overMemberView
  simp only [pyGet_obj, except_bind_okv]
  rw [hr]
  rfl

/-- C4 counterexample: for the overloaded member with load_ratio 1.299 the
sprint renderer prints 29 percent, the truncation toward zero, whereas the
claimed nearest-integer rounding of (1.299 - 1) * 100 is 30; the 30 percent
line appears nowhere in the report. -/
theorem c4_overload_rounding_counterexample :
    pyIntOfRat ((mkRat 1299 1000 - 1) * 100) = 29
    ∧ round ((mkRat 1299 1000 - 1) * 100) = 30
    ∧ ("      Перегрузка: 29%\n" ∈
        ((format_sprint_chunks (.obj [("team_performance", .obj [("workload_distribution",
          .obj [("overloaded_members", .arr [.obj [("load_ratio",
          .num (mkRat 1299 1000))]])])])])).toOption.getD []))
    ∧ ("      Перегрузка: 30%\n" ∉
        ((format_sprint_chunks (.obj [("team_performance", .obj [("workload_distribution",
          .obj [("overloaded_members", .arr [.obj [("load_ratio",
          .num (mkRat 1299 1000))]])])])])).toOption.getD [])) := by
  have hq : ((mkRat 1299 1000 - 1) * 100 : ℚ) = 299/10 := by
    rw [Rat.mkRat_eq_div]
    norm_num
  have h29 : pyIntOfRat ((mkRat 1299 1000 - 1) * 100) = 29 := by
    rw [hq]
    unfold pyIntOfRat
    rw [if_pos (by norm_num : (0:ℚ) ≤ 299/10)]
    have h1 : (299/10 : ℚ).num = 299 := by norm_num
    have h2 : (299/10 : ℚ).den = 10 := by norm_num
    rw [h1, h2]
    decide
  have h30 : round ((mkRat 1299 1000 - 1) * 100) = 30 := by
    rw [hq, round_eq, Int.floor_eq_iff]
    norm_num
  have hlist : ((format_sprint_chunks (.obj [("team_performance", .obj [("workload_distribution",
      .obj [("overloaded_members", .arr [.obj [("load_ratio",
      .num (mkRat 1299 1000))]])])])])).toOption.getD []) =
      [sprintC0 ⟨"не указана", "N/A", "НЕ ОПРЕДЕЛЁН", [], [], "N/A", "N/A", "N/A", "N/A",
         "N/A", "N/A", "N/A", some [⟨"None", "None", "None", "None", mkRat 1299 1000⟩],
         none, none, none, none, none⟩,
       sprintRisksHdr,
       sprintMetricsChunk ⟨"не указана", "N/A", "НЕ ОПРЕДЕЛЁН", [], [], "N/A", "N/A", "N/A",
         "N/A", "N/A", "N/A", "N/A", some [⟨"None", "None", "None", "None", mkRat 1299 1000⟩],
         none, none, none, none, none⟩,
       overHdrChunk,
       "    • " ++ ("None" ++ (" (" ++ ("None" ++ ")\n"))),
       "      Нагрузка: " ++ ("None" ++ (" SP (норма: " ++ ("None" ++ " SP)\n"))),
       "      Перегрузка: " ++ (toString (pyIntOfRat ((mkRat 1299 1000 - 1) * 100)) ++ "%\n"),
       sprintFooterChunk] := rfl
  refine ⟨h29, h30, ?_, ?_⟩
  · rw [hlist, h29]
    decide
  · rw [hlist, h29]
    decide

/-- C4 amended: for every overloaded team member entry with numeric load_ratio
r in a sprint payload the renderer accepts, the printed overload percentage is
the truncation toward zero of (r - 1) * 100, i.e. Python int(), not the
nearest-integer rounding. -/
theorem c4_overload_truncation_amended (data : JsonVal) (cs : List String)
    (m : JsonVal) (mk2 : List (String × JsonVal)) (ms : List JsonVal) (r : ℚ)
    (h : format_sprint_chunks data = .ok cs)
    (hms : ((data.getD "team_performance" (.obj [])).getD "workload_distribution"
      (.obj [])).getD "overloaded_members" .null = .arr ms)
    (hmem : m ∈ ms) (hm : m = .obj mk2)
    (hr : m.getD "load_ratio" (.num 1) = .num r) :
    ("      Перегрузка: " ++ (toString (pyIntOfRat ((r - 1) * 100)) ++ "%\n")) ∈ cs := by
  unfold format_sprint_chunks at h
  rw [exceptMap_ok_iff] at h
  obtain ⟨v, hv, hcs⟩ := h
  subst hcs
  obtain ⟨_, _, _, hoverfact⟩ := sprintView_facts data v hv
  obtain ⟨mvs, hvover, hmapE⟩ := hoverfact ms hms (by
    intro hnil
    subst hnil
    simp at hmem)
  obtain ⟨mv, hmvmem, hmv⟩ := mapE_ok_forward _ ms mvs hmapE m hmem
  rw [overMemberView_ratio m mk2 r hm hr] at hmv
  injection hmv with hmv2
  have hchunk : ("      Перегрузка: " ++ (toString (pyIntOfRat ((r - 1) * 100)) ++ "%\n"))
      ∈ overMemberChunks mv := by
    rw [← hmv2]
    simp [overMemberChunks]
  have hflat : ("      Перегрузка: " ++ (toString (pyIntOfRat ((r - 1) * 100)) ++ "%\n"))
      ∈ (mvs.map overMemberChunks).flatten :=
    List.mem_flatten.2 ⟨overMemberChunks mv, List.mem_map_of_mem _ hmvmem, hchunk⟩
  simp only [sprintChunksOf, hvover, List.mem_append, List.mem_cons]
  tauto

/-- Closed witness for c4_overload_truncation_amended at the concrete payload
with one overloaded member of load_ratio 1.299. -/
theorem c4_overload_truncation_amended_witness :
    ("      Перегрузка: " ++ (toString (pyIntOfRat ((mkRat 1299 1000 - 1) * 100)) ++ "%\n")) ∈
      ((format_sprint_chunks (.obj [("team_performance", .obj [("workload_distribution",
        .obj [("overloaded_members", .arr [.obj [("load_ratio",
        .num (mkRat 1299 1000))]])])])])).toOption.getD []) :=
  c4_overload_truncation_amended
    (.obj [("team_performance", .obj [("workload_distribution",
      .obj [("overloaded_members", .arr [.obj [("load_ratio", .num (mkRat 1299 1000))]])])])])
    _ (.obj [("load_ratio", .num (mkRat 1299 1000))]) [("load_ratio", .num (mkRat 1299 1000))]
    [.obj [("load_ratio", .num (mkRat 1299 1000))]] (mkRat 1299 1000)
    rfl rfl (by simp) rfl rfl

/-- The tasks section of the analysis view is present exactly when the tasks
field of the payload is truthy. -/
theorem analysisView_facts (data : JsonVal) (v : AnalysisView) (h : analysisView data = .ok v) :
    v.tasks.isSome = pyTruthy (data.getD "tasks" (.arr [])) := by
  unfold analysisView at h
  simp only [exceptBind_ok_iff, except_pure_eq, Except.ok.injEq] at h
  obtain ⟨statusJ, hst, stU, hstU, crJ, hcr, flJ, hfl, tasksJ, htJ, tasks, htasks, hv⟩ := h
  subst hv
  have e1 : tasksJ = data.getD "tasks" (.arr []) := pyGet_ok_getD htJ
  rw [← e1]
  exact guardedViews_isSome htasks

/-- The created-tasks section title appears among the analysis chunks exactly
when the tasks section is present. -/
theorem analysis_title_iff (v : AnalysisView) :
    (analysisTasksTitle ∈ analysisChunksOf v) ↔ v.tasks.isSome = true := by
  constructor
  · intro hmem
    cases ht : v.tasks with
    | some ts => rfl
    | none =>
      exfalso
      simp only [analysisChunksOf, ht, List.append_nil, List.mem_append, List.mem_cons,
        List.not_mem_nil, or_false] at hmem
      rcases hmem with hmem | hmem
      · have hne : analysisC0 v ≠ analysisTasksTitle := by
          unfold analysisC0
          exact append_ne_of_not_pref _ _ _ (by decide)
        exact hne hmem.symm
      · exact absurd hmem (by decide)
  · intro hsome
    cases ht : v.tasks with
    | none => rw [ht] at hsome; simp at hsome
    | some ts => simp [analysisChunksOf, ht]

/-- C5 counterexample: on a payload whose tasks list is empty the analysis
renderer emits no created-tasks section title at all, contradicting the claim
that the header is always emitted exactly once. -/
theorem c5_tasks_header_counterexample :
    format_analysis_chunks (.obj [("status", .str "success"), ("tasks_created", .num 0),
      ("tasks_failed", .num 0), ("tasks", .arr [])]) = .ok
      [analysisC0 ⟨"SUCCESS", "0", "0", none⟩, analysisFooterChunk]
    ∧ analysisTasksTitle ∉ [analysisC0 ⟨"SUCCESS", "0", "0", none⟩, analysisFooterChunk] := by
  refine ⟨rfl, ?_⟩
  intro hmem
  rcases List.mem_cons.1 hmem with hm1 | hm2
  · have hne : analysisC0 ⟨"SUCCESS", "0", "0", none⟩ ≠ analysisTasksTitle := by
      unfold analysisC0
      exact append_ne_of_not_pref _ _ _ (by decide)
    exact hne hm1.symm
  · simp only [List.mem_singleton] at hm2
    exact absurd hm2 (by decide)

/-- Three-fold disagreement of a chunk with the three guarded section headers,
derived from a literal-prefix conflict. -/
theorem pref_ne3 (p rest : String)
    (h1 : p.data.isPrefixOf sprintBotHdr.data = false)
    (h2 : p.data.isPrefixOf sprintImmHdr.data = false)
    (h3 : p.data.isPrefixOf sprintRetroHdr.data = false) :
    p ++ rest ≠ sprintBotHdr ∧ p ++ rest ≠ sprintImmHdr ∧ p ++ rest ≠ sprintRetroHdr :=
  ⟨append_ne_of_not_pref _ _ _ h1, append_ne_of_not_pref _ _ _ h2,
   append_ne_of_not_pref _ _ _ h3⟩

/-- Occurrence of one of the three guarded section headers among the sprint
chunks forces the corresponding section to be present: every other chunk of
the report differs from the header already on a literal prefix. -/
theorem sprint_chunks_hdr_facts (v : SprintView) (c : String) (hc : c ∈ sprintChunksOf v) :
    (c = sprintBotHdr → v.bots.isSome = true)
    ∧ (c = sprintImmHdr → v.imms.isSome = true)
    ∧ (c = sprintRetroHdr → v.retros.isSome = true) := by
  have hne3 : ∀ (P1 P2 P3 : Prop) (c2 : String), c2 ≠ sprintBotHdr → c2 ≠ sprintImmHdr →
      c2 ≠ sprintRetroHdr →
      ((c2 = sprintBotHdr → P1) ∧ (c2 = sprintImmHdr → P2) ∧ (c2 = sprintRetroHdr → P3)) :=
    fun P1 P2 P3 c2 n1 n2 n3 =>
      ⟨fun h => absurd h n1, fun h => absurd h n2, fun h => absurd h n3⟩
  have hpref : ∀ (P1 P2 P3 : Prop) (p rest : String),
      p.data.isPrefixOf sprintBotHdr.data = false →
      p.data.isPrefixOf sprintImmHdr.data = false →
      p.data.isPrefixOf sprintRetroHdr.data = false →
      ((p ++ rest = sprintBotHdr → P1) ∧ (p ++ rest = sprintImmHdr → P2)
       ∧ (p ++ rest = sprintRetroHdr → P3)) := by
    intro P1 P2 P3 p rest h1 h2 h3
    obtain ⟨n1, n2, n3⟩ := pref_ne3 p rest h1 h2 h3
    exact hne3 P1 P2 P3 _ n1 n2 n3
  simp only [sprintChunksOf, List.mem_append, List.mem_cons, List.not_mem_nil, or_false,
    List.mem_map, List.mem_flatten] at hc
  rcases hc with ((((((((((hc | hc) | hc) | hc) | hc) | hc) | hc) | hc) | hc) | hc) | hc) | hc
  · subst hc
    exact hpref _ _ _ sprintC0Lit0 _ (by decide) (by decide) (by decide)
  · obtain ⟨a, ha, rfl⟩ := hc
    exact hpref _ _ _ "  ✓ " _ (by decide) (by decide) (by decide)
  · subst hc
    exact hne3 _ _ _ _ (by decide) (by decide) (by decide)
  · obtain ⟨a, ha, rfl⟩ := hc
    exact hpref _ _ _ "  ⚡ " _ (by decide) (by decide) (by decide)
  · subst hc
    exact hpref _ _ _ sprintMetLit0 _ (by decide) (by decide) (by decide)
  · rcases hov : v.over with _ | ms
    · rw [hov] at hc
      simp at hc
    · rw [hov] at hc
      simp only [List.mem_cons, List.mem_flatten, List.mem_map] at hc
      rcases hc with hc | ⟨l, ⟨mv, hmv, rfl⟩, hcl⟩
      · subst hc
        exact hne3 _ _ _ _ (by decide) (by decide) (by decide)
      · simp only [overMemberChunks, List.mem_cons, List.not_mem_nil, or_false] at hcl
        rcases hcl with rfl | rfl | rfl
        · exact hpref _ _ _ "    • " _ (by decide) (by decide) (by decide)
        · exact hpref _ _ _ "      Нагрузка: " _ (by decide) (by decide) (by decide)
        · exact hpref _ _ _ "      Перегрузка: " _ (by decide) (by decide) (by decide)
  · rcases hov : v.under with _ | ms
    · rw [hov] at hc
      simp at hc
    · rw [hov] at hc
      simp only [List.mem_cons, List.mem_flatten, List.mem_map] at hc
      rcases hc with hc | ⟨l, ⟨mv, hmv, rfl⟩, hcl⟩
      · subst hc
        exact hne3 _ _ _ _ (by decide) (by decide) (by decide)
      · simp only [underMemberChunks, List.mem_cons, List.not_mem_nil, or_false] at hcl
        rcases hcl with rfl
        exact hpref _ _ _ "    • " _ (by decide) (by decide) (by decide)
  · rcases hov : v.bots with _ | bs
    · rw [hov] at hc
      simp at hc
    · rw [hov] at hc
      simp only [List.mem_cons, List.mem_flatten, List.mem_map] at hc
      rcases hc with hc | ⟨l, ⟨b, hb, rfl⟩, hcl⟩
      · subst hc
        exact ⟨fun _ => rfl, fun h => absurd h (by decide), fun h => absurd h (by decide)⟩
      · simp only [botChunks, List.mem_cons, List.not_mem_nil, or_false] at hcl
        rcases hcl with rfl | rfl | rfl | rfl
        · exact hpref _ _ _ "  • Этап: " _ (by decide) (by decide) (by decide)
        · exact hpref _ _ _ "    Среднее время ожидания: " _ (by decide) (by decide) (by decide)
        · exact hpref _ _ _ "    Задач в работе: " _ (by decide) (by decide) (by decide)
        · exact hpref _ _ _ "    Причина: " _ (by decide) (by decide) (by decide)
  · rcases hov : v.imms with _ | xs
    · rw [hov] at hc
      simp at hc
    · rw [hov] at hc
      simp only [List.mem_cons, List.mem_flatten, List.mem_map] at hc
      rcases hc with hc | ⟨l, ⟨ia, hia, rfl⟩, hcl⟩
      · subst hc
        exact ⟨fun h => absurd h (by decide), fun _ => rfl, fun h => absurd h (by decide)⟩
      · simp only [actChunks, List.mem_cons, List.not_mem_nil, or_false] at hcl
        rcases hcl with rfl | rfl | rfl | rfl
        · exact hpref _ _ _ "  " _ (by decide) (by decide) (by decide)
        · exact hpref _ _ _ "     👤 Ответственный: " _ (by decide) (by decide) (by decide)
        · exact hpref _ _ _ "     📅 Дедлайн: " _ (by decide) (by decide) (by decide)
        · exact hpref _ _ _ "     💡 Эффект: " _ (by decide) (by decide) (by decide)
  · rcases hov : v.shorts with _ | xs
    · rw [hov] at hc
      simp at hc
    · rw [hov] at hc
      simp only [List.mem_cons, List.mem_flatten, List.mem_map] at hc
      rcases hc with hc | ⟨l, ⟨ia, hia, rfl⟩, hcl⟩
      · subst hc
        exact hne3 _ _ _ _ (by decide) (by decide) (by decide)
      · simp only [impChunks, List.mem_cons, List.not_mem_nil, or_false] at hcl
        rcases hcl with rfl | rfl | rfl | rfl
        · exact hpref _ _ _ "  " _ (by decide) (by decide) (by decide)
        · exact hpref _ _ _ "     ⏱️  Время внедрения: " _ (by decide) (by decide) (by decide)
        · exact hpref _ _ _ "     📈 Эффект: " _ (by decide) (by decide) (by decide)
        · exact hpref _ _ _ "     💬 Зачем: " _ (by decide) (by decide) (by decide)
  · rcases hov : v.retros with _ | xs
    · rw [hov] at hc
      simp at hc
    · rw [hov] at hc
      simp only [List.mem_cons, List.mem_flatten, List.mem_map] at hc
      rcases hc with hc | ⟨l, ⟨ia, hia, rfl⟩, hcl⟩
      · subst hc
        exact ⟨fun h => absurd h (by decide), fun h => absurd h (by decide), fun _ => rfl⟩
      · simp only [topicChunks, List.mem_cons, List.not_mem_nil, or_false] at hcl
        rcases hcl with rfl | rfl | rfl
        · exact hpref _ _ _ "  " _ (by decide) (by decide) (by decide)
        · exact hpref _ _ _ "     ❓ Почему важно: " _ (by decide) (by decide) (by decide)
        · exact hpref _ _ _ "     🎯 Ожидаемый результат: " _ (by decide) (by decide) (by decide)
  · subst hc
    exact hne3 _ _ _ _ (by decide) (by decide) (by decide)

/-- C5 amended: the analysis renderer emits the created-tasks section title
exactly when the tasks list is truthy (so never for an empty or absent list),
and the sprint renderer emits its bottleneck, immediate-action and
retrospective section titles exactly when the corresponding payload list is
truthy. -/
theorem c5_section_guards_amended :
    (∀ data cs, format_analysis_chunks data = .ok cs →
      (analysisTasksTitle ∈ cs ↔ pyTruthy (data.getD "tasks" (.arr [])) = true))
    ∧ (∀ data cs, format_sprint_chunks data = .ok cs →
      ((sprintBotHdr ∈ cs ↔ pyTruthy (((data.getD "flow_metrics" (.obj [])).getD
          "cumulative_flow" (.obj [])).getD "bottlenecks" (.arr [])) = true)
       ∧ (sprintImmHdr ∈ cs ↔ pyTruthy ((data.getD "actionable_recommendations"
          (.obj [])).getD "immediate_actions" (.arr [])) = true)
       ∧ (sprintRetroHdr ∈ cs ↔ pyTruthy (data.getD "retrospective_topics"
          (.arr [])) = true))) := by
  constructor
  · intro data cs h
    unfold format_analysis_chunks at h
    rw [exceptMap_ok_iff] at h
    obtain ⟨v, hv, rfl⟩ := h
    rw [analysis_title_iff v, analysisView_facts data v hv]
  · intro data cs h
    unfold format_sprint_chunks at h
    rw [exceptMap_ok_iff] at h
    obtain ⟨v, hv, rfl⟩ := h
    obtain ⟨f1, f2, f3, _⟩ := sprintView_facts data v hv
    refine ⟨⟨?_, ?_⟩, ⟨?_, ?_⟩, ⟨?_, ?_⟩⟩
    · intro hmem
      rw [← f1]
      exact (sprint_chunks_hdr_facts v _ hmem).1 rfl
    · intro htr
      have hsome : v.bots.isSome = true := by rw [f1]; exact htr
      cases hb : v.bots with
      | none => rw [hb] at hsome; simp at hsome
      | some bs =>
        have hin : sprintBotHdr ∈ (match v.bots with
            | some bs => sprintBotHdr :: (bs.map botChunks).flatten
            | none => ([] : List String)) := by
          rw [hb]
          simp
        simp only [sprintChunksOf, List.mem_append]
        tauto
    · intro hmem
      rw [← f2]
      exact (sprint_chunks_hdr_facts v _ hmem).2.1 rfl
    · intro htr
      have hsome : v.imms.isSome = true := by rw [f2]; exact htr
      cases hb : v.imms with
      | none => rw [hb] at hsome; simp at hsome
      | some xs =>
        have hin : sprintImmHdr ∈ (match v.imms with
            | some xs => sprintImmHdr :: ((enumFromN 1 xs).map actChunks).flatten
            | none => ([] : List String)) := by
          rw [hb]
          simp
        simp only [sprintChunksOf, List.mem_append]
        tauto
    · intro hmem
      rw [← f3]
      exact (sprint_chunks_hdr_facts v _ hmem).2.2 rfl
    · intro htr
      have hsome : v.retros.isSome = true := by rw [f3]; exact htr
      cases hb : v.retros with
      | none => rw [hb] at hsome; simp at hsome
      | some xs =>
        have hin : sprintRetroHdr ∈ (match v.retros with
            | some xs => sprintRetroHdr :: ((enumFromN 1 xs).map topicChunks).flatten
            | none => ([] : List String)) := by
          rw [hb]
          simp
        simp only [sprintChunksOf, List.mem_append]
        tauto

/-- Closed witness for c5_section_guards_amended: a one-task analysis payload
emits the created-tasks title, and a one-bottleneck sprint payload emits the
bottleneck title. -/
theorem c5_section_guards_amended_witness :
    (analysisTasksTitle ∈ ((format_analysis_chunks (.obj [("status", .str "success"),
        ("tasks", .arr [.obj [("status", .str "created"), ("title", .str "T"),
        ("yougile_id", .str "y")]])])).toOption.getD [])
      ↔ pyTruthy ((JsonVal.obj [("status", .str "success"),
        ("tasks", .arr [.obj [("status", .str "created"), ("title", .str "T"),
        ("yougile_id", .str "y")]])]).getD "tasks" (.arr [])) = true)
    ∧ (sprintBotHdr ∈ ((format_sprint_chunks (.obj [("flow_metrics", .obj [("cumulative_flow",
        .obj [("bottlenecks", .arr [.obj []])])])])).toOption.getD [])
      ↔ pyTruthy ((((JsonVal.obj [("flow_metrics", .obj [("cumulative_flow",
        .obj [("bottlenecks", .arr [.obj []])])])]).getD "flow_metrics" (.obj [])).getD
        "cumulative_flow" (.obj [])).getD "bottlenecks" (.arr [])) = true) := by
  refine ⟨c5_section_guards_amended.1 _ _ rfl, ?_⟩
  have h := c5_section_guards_amended.2
    (.obj [("flow_metrics", .obj [("cumulative_flow",
      .obj [("bottlenecks", .arr [.obj []])])])])
    (((format_sprint_chunks (.obj [("flow_metrics", .obj [("cumulative_flow",
      .obj [("bottlenecks", .arr [.obj []])])])])).toOption.getD [])) rfl
  exact h.1

theorem countP_split {α : Type} (p : α → Bool) (l : List α) :
    l.countP p + l.countP (fun a => !(p a)) = l.length := by
  induction l with
  | nil => rfl
  | cons x xs ih =>
    by_cases h : p x = true
    · simp [List.countP_cons, h]
      omega
    · have h2 : p x = false := by simpa using h
      simp [List.countP_cons, h2]
      omega

theorem flatten_map_map {α β : Type} (g : α → β) (ls : List (List α)) :
    (ls.map (List.map g)).flatten = ls.flatten.map g := by
  induction ls with
  | nil => rfl
  | cons l rest ih => simp only [List.map_cons, List.flatten_cons, List.map_append, ih]

theorem mapE_ok_exists {α β : Type} (f : α → Except PyErr β) :
    ∀ l : List α, (∀ x ∈ l, ∃ y, f x = .ok y) → ∃ ys, mapE f l = .ok ys := by
  intro l
  induction l with
  | nil => intro _; exact ⟨[], rfl⟩
  | cons x xs ih =>
    intro h
    obtain ⟨y, hy⟩ := h x (by simp)
    obtain ⟨ys, hys⟩ := ih (fun z hz => h z (by simp [hz]))
    exact ⟨y :: ys, by simp [mapE, hy, hys]⟩

theorem aTaskView_ok (rk : List (String × JsonVal)) :
    ∃ tv, aTaskView (.obj rk) = .ok tv := by
  unfold aTaskView
  simp only [pyGet_obj, except_bind_okv]
  split
  · exact ⟨_, rfl⟩
  · exact ⟨_, rfl⟩

/-- On a dict task entry whose successful creation responses are dicts, the
loop step appends exactly the record of the creation outcome. -/
theorem taskRecordOf_ok (create1 : JsonVal → Except PyErr JsonVal) (t : JsonVal)
    (ht : ∃ tk, t = .obj tk)
    (hcr : ∀ rr, create1 t = .ok rr → ∃ rk, rr = .obj rk) :
    taskRecordOf create1 t = .ok (recordOf create1 t) := by
  obtain ⟨tk, rfl⟩ := ht
  unfold taskRecordOf recordOf
  cases hc : create1 (.obj tk) with
  | error e => rfl
  | ok r =>
    obtain ⟨rk, rfl⟩ := hcr r hc
    rfl

/-- On a well-shaped epic the inner loop produces the records of its tasks. -/
theorem walkEpic_ok (create1 : JsonVal → Except PyErr JsonVal) (e : JsonVal)
    (he : ∃ ek, e = .obj ek) (ts : List JsonVal)
    (hts : e.getD "tasks" (.arr []) = .arr ts)
    (htasks : ∀ t ∈ ts, ∃ tk, t = .obj tk)
    (hcr : ∀ t ∈ ts, ∀ rr, create1 t = .ok rr → ∃ rk, rr = .obj rk) :
    walkEpic create1 e = .ok (ts.map (recordOf create1)) := by
  obtain ⟨ek, rfl⟩ := he
  unfold walkEpic
  simp only [pyGet_obj, except_bind_okv]
  rw [hts]
  simp only [pyIter, except_bind_okv]
  exact mapE_ok_of _ _ ts (fun t ht => taskRecordOf_ok create1 t (htasks t ht) (hcr t ht))

/-- The record of a creation outcome is a dict whose status is created on
success and failed on failure. -/
theorem recordOf_status (create1 : JsonVal → Except PyErr JsonVal) (t : JsonVal) :
    jsonEqStr ((recordOf create1 t).getD "status" .null) "created" =
      (match create1 t with
       | .ok _ => true
       | .error _ => false)
    ∧ jsonEqStr ((recordOf create1 t).getD "status" .null) "failed" =
      (match create1 t with
       | .ok _ => false
       | .error _ => true)
    ∧ ∃ rk, recordOf create1 t = .obj rk := by
  unfold recordOf
  cases create1 t with
  | ok r => exact ⟨rfl, rfl, _, rfl⟩
  | error e => exact ⟨rfl, rfl, _, rfl⟩

/-- A guarded section over a list value succeeds when every element read
succeeds. -/
theorem guardedViews_ok_of {β : Type} (ms : List JsonVal) (f : JsonVal → Except PyErr β)
    (h : ∀ x ∈ ms, ∃ y, f x = .ok y) : ∃ o, guardedViews (.arr ms) f = .ok o := by
  unfold guardedViews
  split
  · obtain ⟨ys, hys⟩ := mapE_ok_exists f ms h
    exact ⟨some ys, by simp [pyIter, hys]⟩
  · exact ⟨none, rfl⟩

/-- The analysis renderer succeeds on any dict payload whose status is a
string and whose tasks field is a list of dicts. -/
theorem format_analysis_ok (kvs : List (String × JsonVal)) (stv : String)
    (recs : List JsonVal)
    (hstv : (JsonVal.obj kvs).getD "status" (.str "не определён") = .str stv)
    (htasks : (JsonVal.obj kvs).getD "tasks" (.arr []) = .arr recs)
    (hrecs : ∀ t ∈ recs, ∃ rk, t = .obj rk) :
    ∃ rep, format_human_readable_report (.obj kvs) (.str "analysis") = .ok rep := by
  unfold format_human_readable_report
  rw [if_neg (by decide), if_pos (by decide)]
  unfold format_analysis_report format_analysis_chunks analysisView
  simp only [pyGet_obj, except_bind_okv]
  rw [hstv]
  simp only [pyUpper, except_bind_okv]
  rw [htasks]
  obtain ⟨o, ho⟩ := guardedViews_ok_of recs aTaskView (fun t ht => by
    obtain ⟨rk, rfl⟩ := hrecs t ht
    exact aTaskView_ok rk)
  rw [ho]
  simp only [except_bind_okv, except_pure_eq]
  exact ⟨_, rfl⟩

/-- C1: for every well-shaped list of task entries extracted from a parsed
analysis response by walking the epic task lists, where K of the creation
calls fail, the returned envelope has tasks_created = N - K, tasks_failed = K
and a task list of length N; in particular tasks_created + tasks_failed
equals the length of the task list. -/
theorem c1_batch_invariant (cidv : String) (parse : String → Except PyErr JsonVal)
    (create : JsonVal → String → Except PyErr JsonVal) (g : String)
    (parsed : JsonVal) (pk : List (String × JsonVal)) (es : List JsonVal)
    (hp : parse (extract_json_from_markdown g) = .ok parsed)
    (hobj : parsed = .obj pk)
    (hes : parsed.getD "epics" (.arr []) = .arr es)
    (hshape : ∀ e ∈ es, (∃ ek, e = .obj ek) ∧ (∃ ts, e.getD "tasks" (.arr []) = .arr ts)
      ∧ ∀ t ∈ epicTasks e, ∃ tk, t = .obj tk)
    (hcr : ∀ t ∈ allTasks parsed, ∀ rr, create t cidv = .ok rr → ∃ rk, rr = .obj rk) :
    ∃ env, process_analysis_request (some cidv) parse create g = .ok env
      ∧ env.getD "tasks_created" .null =
          .num (((allTasks parsed).length
            - createFails (fun t => create t cidv) (allTasks parsed) : ℕ) : ℚ)
      ∧ env.getD "tasks_failed" .null =
          .num ((createFails (fun t => create t cidv) (allTasks parsed) : ℕ) : ℚ)
      ∧ (∃ l, env.getD "tasks" .null = .arr l ∧ l.length = (allTasks parsed).length)
      ∧ ((allTasks parsed).length - createFails (fun t => create t cidv) (allTasks parsed))
          + createFails (fun t => create t cidv) (allTasks parsed)
          = (allTasks parsed).length := by
  subst hobj
  set c1fn : JsonVal → Except PyErr JsonVal := fun t => create t cidv with hc1fn
  set AT : List JsonVal := allTasks (JsonVal.obj pk) with hATdef
  have hAT : AT = (es.map epicTasks).flatten := by
    rw [hATdef]
    unfold allTasks
    rw [hes]
  have hKleN : createFails c1fn AT ≤ AT.length := List.countP_le_length _
  unfold process_analysis_request
  rw [hp]
  simp only [pyGet_obj, except_bind_okv]
  rw [hes]
  simp only [pyIter, except_bind_okv]
  have hwalk : mapE (walkEpic c1fn) es
      = .ok (es.map (fun e => (epicTasks e).map (recordOf c1fn))) := by
    apply mapE_ok_of
    intro e he
    obtain ⟨hek, ⟨ts, hts⟩, htOb⟩ := hshape e he
    have hepts : epicTasks e = ts := by
      unfold epicTasks
      rw [hts]
    rw [hepts] at htOb ⊢
    apply walkEpic_ok c1fn e hek ts hts htOb
    intro t ht rr hrr
    refine hcr t ?_ rr hrr
    show t ∈ AT
    rw [hAT]
    exact List.mem_flatten.2 ⟨epicTasks e, List.mem_map_of_mem _ he, by rw [hepts]; exact ht⟩
  rw [hwalk]
  simp only [except_bind_okv]
  have hflat : (es.map (fun e => (epicTasks e).map (recordOf c1fn))).flatten
      = AT.map (recordOf c1fn) := by
    rw [hAT, ← flatten_map_map]
    congr 1
    rw [List.map_map]
    rfl
  rw [hflat]
  have hrecsObj : ∀ t ∈ AT.map (recordOf c1fn), ∃ rk, t = .obj rk := by
    intro t ht
    obtain ⟨t0, _, rfl⟩ := List.mem_map.1 ht
    obtain ⟨rk, hrk⟩ := (recordOf_status c1fn t0).2.2
    exact ⟨rk, hrk⟩
  obtain ⟨rep, hrep⟩ := format_analysis_ok
    [("status", .str "success"), ("request_type", .str "analysis"),
     ("tasks_created", .num ((countStatus (AT.map (recordOf c1fn)) "created" : ℕ) : ℚ)),
     ("tasks_failed", .num ((countStatus (AT.map (recordOf c1fn)) "failed" : ℕ) : ℚ)),
     ("tasks", .arr (AT.map (recordOf c1fn))), ("gpt_analysis", .obj pk)]
    "success" (AT.map (recordOf c1fn)) rfl rfl hrecsObj
  rw [hrep]
  simp only [except_bind_okv, except_pure_eq]
  have hokpred : ((fun t => jsonEqStr (t.getD "status" .null) "created") ∘ recordOf c1fn)
      = fun t => match c1fn t with
        | .ok _ => true
        | .error _ => false := by
    funext t
    show jsonEqStr ((recordOf c1fn t).getD "status" .null) "created" = _
    exact (recordOf_status c1fn t).1
  have hfailpred : ((fun t => jsonEqStr (t.getD "status" .null) "failed") ∘ recordOf c1fn)
      = fun t => match c1fn t with
        | .ok _ => false
        | .error _ => true := by
    funext t
    show jsonEqStr ((recordOf c1fn t).getD "status" .null) "failed" = _
    exact (recordOf_status c1fn t).2.1
  have hsplit : AT.countP (fun t => match c1fn t with
      | .ok _ => true
      | .error _ => false)
      + AT.countP (fun a => !(match c1fn a with
        | .ok _ => true
        | .error _ => false)) = AT.length :=
    countP_split (fun t => match c1fn t with
      | .ok _ => true
      | .error _ => false) AT
  have hfailcong : AT.countP (fun t => match c1fn t with
      | .ok _ => false
      | .error _ => true)
      = AT.countP (fun a => !(match c1fn a with
        | .ok _ => true
        | .error _ => false)) := by
    apply List.countP_congr
    intro a ha
    show ((match c1fn a with
      | .ok _ => false
      | .error _ => true) = true)
      ↔ ((!(match c1fn a with
      | .ok _ => true
      | .error _ => false)) = true)
    cases c1fn a <;> simp
  have hcount1 : countStatus (AT.map (recordOf c1fn)) "created"
      = AT.length - createFails c1fn AT := by
    unfold countStatus createFails
    rw [List.countP_map, hokpred, hfailcong]
    omega
  have hcount2 : countStatus (AT.map (recordOf c1fn)) "failed" = createFails c1fn AT := by
    unfold countStatus createFails
    rw [List.countP_map, hfailpred]
  have hKle2 : createFails c1fn AT ≤ AT.length := hKleN
  refine ⟨_, rfl, ?_, ?_, ?_, ?_⟩
  · show JsonVal.num ((countStatus (AT.map (recordOf c1fn)) "created" : ℕ) : ℚ) = _
    rw [hcount1]
  · show JsonVal.num ((countStatus (AT.map (recordOf c1fn)) "failed" : ℕ) : ℚ) = _
    rw [hcount2]
  · exact ⟨_, rfl, List.length_map _ _⟩
  · omega

/-- Closed witness for c1_batch_invariant: two tasks, one failing creation
call, giving one created and one failed record over a two-element task list. -/
theorem c1_batch_invariant_witness :
    (match process_analysis_request (some "col")
        (fun _ => .ok (.obj [("epics", .arr [.obj [("tasks", .arr
          [.obj [("task_id", .num 1), ("title", .str "A")],
           .obj [("task_id", .num 2), ("title", .str "B")]])]])]))
        (fun t _ => if jsonEqStr (t.getD "title" .null) "A"
          then .ok (.obj [("id", .str "y1")]) else .error "http 500") "x" with
     | .ok env =>
        env.getD "tasks_created" .null = .num 1
        ∧ env.getD "tasks_failed" .null = .num 1
        ∧ (match env.getD "tasks" .null with
           | .arr l => l.length = 2
           | _ => False)
     | .error _ => False) := by
  obtain ⟨env, h1, hcreated, hfailed, ⟨l, hl, hlen⟩, hsum⟩ := c1_batch_invariant "col"
    (fun _ => .ok (.obj [("epics", .arr [.obj [("tasks", .arr
      [.obj [("task_id", .num 1), ("title", .str "A")],
       .obj [("task_id", .num 2), ("title", .str "B")]])]])]))
    (fun t _ => if jsonEqStr (t.getD "title" .null) "A"
      then .ok (.obj [("id", .str "y1")]) else .error "http 500") "x"
    (.obj [("epics", .arr [.obj [("tasks", .arr
      [.obj [("task_id", .num 1), ("title", .str "A")],
       .obj [("task_id", .num 2), ("title", .str "B")]])]])])
    [("epics", .arr [.obj [("tasks", .arr
      [.obj [("task_id", .num 1), ("title", .str "A")],
       .obj [("task_id", .num 2), ("title", .str "B")]])]])]
    [.obj [("tasks", .arr
      [.obj [("task_id", .num 1), ("title", .str "A")],
       .obj [("task_id", .num 2), ("title", .str "B")]])]]
    rfl rfl rfl
    (by
      intro e he
      simp only [List.mem_singleton] at he
      subst he
      refine ⟨⟨_, rfl⟩, ⟨_, rfl⟩, ?_⟩
      intro t ht
      simp only [epicTasks, JsonVal.getD, lookupKV] at ht
      rcases List.mem_cons.1 ht with rfl | ht2
      · exact ⟨_, rfl⟩
      · rcases List.mem_singleton.1 ht2 with rfl
        exact ⟨_, rfl⟩)
    (by
      intro t ht rr hrr
      rcases List.mem_cons.1 ht with rfl | ht2
      · cases hrr
        exact ⟨_, rfl⟩
      · rcases List.mem_singleton.1 ht2 with rfl
        cases hrr)
  rw [h1]
  refine ⟨?_, ?_, ?_⟩
  · rw [hcreated]
    rfl
  · rw [hfailed]
    rfl
  · rw [hl]
    show l.length = 2
    rw [hlen]
    rfl
